import Mathlib

/-!
# Tab reminder extension: reminder lifecycle and tab-group reconstruction

A shallow embedding of `background.js` and `popup.js`.

* Values that the browser hands back to a handler (`chrome.tabs.query`,
  `chrome.tabGroups.get`, `chrome.tabs.create`, `Date.now()`, the form fields)
  are explicit arguments of the embedded handler, in the order the handler
  awaits them.
* What a handler changes outside itself is either part of `World` (the synced
  `reminders` object, the alarms, the visible notifications, the icon) or an
  entry of the returned list of `Call`s (tab and window calls, `alert`, the
  sound message).
* JavaScript numbers the handlers compute with are integer-valued; they are
  integers here, and the arithmetic of the creation paths rounds to the nearest
  double (`jsAdd`, `jsMul`). `undefined` and `null` fields are `none`.
* The popup's list rendering and countdown timers (`updateActiveRemindersList`,
  `countdownIntervals`) are view code and are not embedded.
-/

namespace TabReminder

/-! ## Data model -/

/-- A browser tab as the handlers read it: `id`, `windowId`, `groupId`
(`-1` when the tab is in no group), `url` and `title`. -/
structure Tab where
  id : Nat
  windowId : Nat
  groupId : Int
  url : String
  title : String
  deriving DecidableEq, Repr

/-- What `chrome.tabGroups.get` resolves with, as far as the handlers read it. -/
structure TabGroup where
  title : String
  color : String
  deriving DecidableEq, Repr

/-- A stored reminder record. The last five fields are the ones spread from
`groupInfo` (creation) or written by the alarm handler; they are `none` when the
record has no such property. -/
structure Reminder where
  url : String
  reminderTime : Int
  timestamp : Int
  endTime : Int
  title : String
  tabTitle : Option String
  comment : String
  groupId : Option Int := none
  groupTitle : Option String := none
  groupColor : Option String := none
  groupUrls : Option (List String) := none
  reminderIndex : Option Int := none
  deriving DecidableEq, Repr

/-- The `reminders` object of `chrome.storage.sync`: keys in insertion order. -/
abbrev Store := List (String × Reminder)

/-- Property read `reminders[key]`. -/
def Store.get (s : Store) (key : String) : Option Reminder :=
  match s with
  | [] => none
  | (k, r) :: rest => if k = key then some r else Store.get rest key

/-- Property write `reminders[key] = r`: an existing key keeps its place, a new
key is appended. -/
def Store.set (s : Store) (key : String) (r : Reminder) : Store :=
  match s with
  | [] => [(key, r)]
  | (k, v) :: rest => if k = key then (k, r) :: rest else (k, v) :: Store.set rest key r

/-- Property removal `delete reminders[key]`. -/
def Store.delete (s : Store) (key : String) : Store :=
  s.filter (fun kv => kv.1 ≠ key)

/-- Evaluates `Object.values(reminders)`. -/
def Store.values (s : Store) : List Reminder := s.map Prod.snd

/-- A visible notification: the id it was created under (`none` when the
platform generates one), its title and message. -/
structure Notification where
  id : Option String
  title : String
  message : String
  deriving DecidableEq, Repr

/-- Everything the handlers persist or show. -/
structure World where
  reminders : Store
  alarms : List (String × Int)
  notifications : List Notification
  iconOverdue : Bool
  deriving DecidableEq, Repr

/-- Platform calls a handler issues besides the ones recorded in `World`. -/
inductive Call where
  | alert (msg : String)
  | tabsUpdateActive (tabId : Nat)
  | windowsUpdateFocused (windowId : Nat)
  | tabsCreate (url : String) (active : Bool)
  | tabsGroup (tabIds : List Nat)
  | tabGroupsUpdate (groupId : Int) (title : String) (color : String)
  | sendMessage (type : String)
  deriving DecidableEq, Repr

/-- Schedules `chrome.alarms.create(name, { delayInMinutes })`: an alarm of the
same name is replaced. -/
def alarmsCreate (alarms : List (String × Int)) (name : String) (delay : Int) :
    List (String × Int) :=
  alarms.filter (fun a => a.1 ≠ name) ++ [(name, delay)]

/-- Cancels an alarm, `chrome.alarms.clear(name)`. -/
def alarmsClear (alarms : List (String × Int)) (name : String) : List (String × Int) :=
  alarms.filter (fun a => a.1 ≠ name)

/-- Removes a notification, `chrome.notifications.clear(id)`. -/
def notificationsClear (ns : List Notification) (id : String) : List Notification :=
  ns.filter (fun n => n.id ≠ some id)

/-- Shows a notification, `chrome.notifications.create(id, ...)`: one with the
same id is replaced. -/
def notificationsCreate (ns : List Notification) (n : Notification) : List Notification :=
  match n.id with
  | some id => notificationsClear ns id ++ [n]
  | none => ns ++ [n]

/-! ## JavaScript array and string helpers used by the handlers -/

/-- First index of `x`, as `Array.prototype.indexOf` gives it; `-1` when absent. -/
def indexOf (xs : List String) (x : String) : Int :=
  match xs with
  | [] => -1
  | y :: ys => if y = x then 0 else
      let i := indexOf ys x
      if i < 0 then -1 else i + 1

/-- Insertion by `Array.prototype.splice(start, 0, x)`: a negative `start` counts
from the end and is clamped at `0`, a `start` beyond the end is clamped to the
length. -/
def spliceInsert (xs : List String) (start : Int) (x : String) : List String :=
  let len : Int := xs.length
  let k : Int := if start < 0 then max (len + start) 0 else min start len
  xs.take k.toNat ++ x :: xs.drop k.toNat

/-- Evaluates `s.split('#')[0]`: the text before the first `#`. -/
def stripHash (s : String) : String :=
  String.mk (s.data.takeWhile (fun c => c ≠ '#'))

/-- A JavaScript string used as a condition: the empty string is falsy. -/
def truthyStr (s : Option String) : Bool :=
  match s with
  | some t => t ≠ ""
  | none => false

/-- A JavaScript number used as a condition: `0` and `undefined` are falsy. -/
def truthyNum (n : Option Int) : Bool :=
  match n with
  | some k => k ≠ 0
  | none => false

/-- How many low bits of `a` a double cannot hold: the number of halvings that
bring `a` below `2 ^ 53`. The fuel covers every finite double. -/
def excessBits : Nat → Nat → Nat
  | 0, _ => 0
  | fuel + 1, a => if a < 2 ^ 53 then 0 else excessBits fuel (a / 2) + 1

/-- The double nearest to an integer, ties to the even mantissa: integers below
`2 ^ 53` in magnitude are kept, larger ones are rounded to 53 significant bits.
Magnitudes from `2 ^ 1024` on, which are `Infinity` in JavaScript, lie outside
this embedding. -/
def roundToDouble (n : Int) : Int :=
  let a := n.natAbs
  let e := excessBits 1024 a
  if e = 0 then n
  else
    let q := a / 2 ^ e
    let rem := a % 2 ^ e
    let half := 2 ^ (e - 1)
    let q' := if rem > half ∨ (rem = half ∧ q % 2 = 1) then q + 1 else q
    if n < 0 then -((q' * 2 ^ e : Nat) : Int) else ((q' * 2 ^ e : Nat) : Int)

/-- The JavaScript product `a * b` of two integer-valued numbers. -/
def jsMul (a b : Int) : Int := roundToDouble (a * b)

/-- The JavaScript sum `a + b` of two integer-valued numbers. -/
def jsAdd (a b : Int) : Int := roundToDouble (a + b)

/-! ## Group reconstruction (`restoreTabGroup`, background.js) -/

/-- The `orderedUrls` array of `restoreTabGroup` right before the tabs are
created: the stored URLs without the reminder's URL, then the reminder's URL
spliced in at `reminderIndex`, or pushed when the index is absent or negative. -/
def restoreOrder (r : Reminder) : List String :=
  let orderedUrls := (r.groupUrls.getD []).filter (fun url => url ≠ r.url)
  match r.reminderIndex with
  | some i => if i ≥ 0 then spliceInsert orderedUrls i r.url else orderedUrls ++ [r.url]
  | none => orderedUrls ++ [r.url]

/-- Where `restoreOrder` places the reminder's URL among the other URLs. -/
def insertPos (r : Reminder) : Nat :=
  let orderedUrls := (r.groupUrls.getD []).filter (fun url => url ≠ r.url)
  match r.reminderIndex with
  | some i => if i ≥ 0 then min i.toNat orderedUrls.length else orderedUrls.length
  | none => orderedUrls.length

/-- The array `Promise.all(orderedUrls.map(url => chrome.tabs.create(...)))`
resolves with: `create i url` is the tab the `i`-th call, made for `url`,
resolves with. -/
def createAll (create : Nat → String → Tab) (i : Nat) : List String → List Tab
  | [] => []
  | url :: rest => create i url :: createAll create (i + 1) rest

/-- The tab `restoreTabGroup` activates: the first created tab whose URL equals
the reminder's URL up to the `#` part, else the first created tab. `none` stands
for reading `createdTabs[0].id` of an empty array, which throws. -/
def focusTarget (r : Reminder) (createdTabs : List Tab) : Option Tab :=
  match createdTabs.find? (fun tab => stripHash tab.url = stripHash r.url) with
  | some t => some t
  | none => createdTabs.head?

/-- The title and colour update of `restoreTabGroup`, issued when the stored
title or colour is truthy. -/
def styleCalls (r : Reminder) (newGroupId : Int) : List Call :=
  if truthyStr r.groupTitle || truthyStr r.groupColor then
    [Call.tabGroupsUpdate newGroupId
      (if truthyStr r.groupTitle then r.groupTitle.getD "" else "")
      (if truthyStr r.groupColor then r.groupColor.getD "grey" else "grey")]
  else []

/-- Embedding of `restoreTabGroup(reminder)`: the calls it makes when every call
it awaits resolves. `create` gives the tabs the `chrome.tabs.create` calls
resolve with and `newGroupId` is the result of `chrome.tabs.group`. Rejected
calls are represented where `openReminder` runs these calls (`restoreSteps`,
`runSteps`). -/
def restoreTabGroup (r : Reminder) (create : Nat → String → Tab) (newGroupId : Int) :
    Except String (List Call) :=
  let orderedUrls := restoreOrder r
  let createdTabs := createAll create 0 orderedUrls
  let creates := orderedUrls.map (fun url => Call.tabsCreate url false)
  let grouping := [Call.tabsGroup (createdTabs.map (fun tab => tab.id))]
  let styling := styleCalls r newGroupId
  match focusTarget r createdTabs with
  | some t =>
      .ok (creates ++ grouping ++ styling ++
        [Call.tabsUpdateActive t.id, Call.windowsUpdateFocused t.windowId])
  | none => .error "TypeError: cannot read properties of undefined (reading 'id')"

/-! ## Overdue state (`checkOverdueReminders`, background.js) -/

/-- The `hasOverdue` value: some stored reminder has a truthy `endTime` that is
below `now`. -/
def hasOverdue (reminders : Store) (now : Int) : Bool :=
  reminders.values.any (fun r => r.endTime ≠ 0 && r.endTime < now)

/-- Embedding of `checkOverdueReminders()` followed by `updateExtensionIcon`:
`now` is `Date.now()`. -/
def checkOverdueReminders (w : World) (now : Int) : World :=
  { w with iconOverdue := hasOverdue w.reminders now }

/-! ## Creation (`setReminder` in popup.js, the command listener in background.js) -/

/-- What the group lookups resolve with: `chrome.tabGroups.get(groupId)` and
`chrome.tabs.query({ groupId })`. -/
structure GroupFetch where
  group : TabGroup
  groupTabs : List Tab
  deriving DecidableEq, Repr

/-- Values awaited inside `getEntireGroupInfo`: `tab` is the result of
`chrome.tabs.get(tabId)`, `fetch` the two group lookups; `none` when the call
rejects (the function catches it). -/
structure GroupLookup where
  tab : Option Tab
  fetch : Option GroupFetch
  deriving DecidableEq, Repr

/-- The object `getEntireGroupInfo` returns. -/
structure GroupInfo where
  groupId : Int
  title : String
  color : String
  urls : List String
  deriving DecidableEq, Repr

/-- Embedding of `getEntireGroupInfo(tabId)`; `none` is its `null`. -/
def getEntireGroupInfo (l : GroupLookup) : Option GroupInfo :=
  match l.tab with
  | none => none
  | some tab =>
      if tab.groupId = 0 ∨ tab.groupId = -1 then none
      else
        match l.fetch with
        | none => none
        | some f =>
            some { groupId := tab.groupId, title := f.group.title, color := f.group.color,
                   urls := (f.groupTabs.map (fun t => t.url)).filter (fun url => url ≠ tab.url) }

/-- Replaces the first occurrence of `pat` in a text, as `String.prototype.replace`
does with a string pattern. -/
def replaceFirst (pat rep : List Char) : List Char → List Char
  | [] => []
  | c :: cs =>
      if pat.isPrefixOf (c :: cs) then rep ++ (c :: cs).drop pat.length
      else c :: replaceFirst pat rep cs

/-- The short label both creation paths derive from a hostname: `www.` removed
once, cut to 20 characters followed by `...` when longer. -/
def shortTitle (hostname : String) : String :=
  let domain := replaceFirst "www.".data [] hostname.data
  if domain.length > 20 then String.mk (domain.take 20) ++ "..." else String.mk domain

/-- Embedding of `getDomainFromUrl(url)`; `hostname` is `new URL(url).hostname`,
`none` when the constructor throws. -/
def getDomainFromUrl (hostname : Option String) : String :=
  match hostname with
  | some h => shortTitle h
  | none => "Custom URL"

/-- The key of a new record, `reminder_${Date.now()}`. -/
def ticketKey (now : Nat) : String := "reminder_" ++ toString now

/-- The popup form as `setReminder` reads it: `reminderTime` is the result of
`parseInt` on the field (`none` for `NaN`), `comment` the trimmed comment. -/
structure Form where
  ticketUrl : String
  reminderTime : Option Int
  comment : String
  deriving DecidableEq, Repr

/-- Values `setReminder` awaits: the two `Date.now()` readings, the active-tab
query, the lookups of `getEntireGroupInfo` and the hostname of the form's URL. -/
structure SetInputs where
  nowKey : Nat
  nowStamp : Nat
  activeTabs : List Tab
  lookup : GroupLookup
  hostname : Option String
  deriving DecidableEq, Repr

/-- The object `setReminder` stores under the new key: the plain fields, and the
group fields spread from `groupInfo` when the active tab is grouped and
`getEntireGroupInfo` returns an object. -/
def setReminderRecord (form : Form) (inp : SetInputs) (reminderTime : Int) : Reminder :=
  let timestamp : Int := inp.nowStamp
  let endTime := jsAdd timestamp (jsMul reminderTime 60000)
  let currentTab := inp.activeTabs.head?
  let plain : Reminder :=
    { url := form.ticketUrl, reminderTime := reminderTime, timestamp := timestamp,
      endTime := endTime, title := getDomainFromUrl inp.hostname,
      tabTitle := currentTab.map (fun t => t.title), comment := form.comment }
  let grouped : Option GroupInfo :=
    match currentTab with
    | some t =>
        if t.groupId ≠ 0 ∧ t.groupId ≠ -1 then getEntireGroupInfo inp.lookup else none
    | none => none
  match grouped with
  | some g =>
      { plain with groupId := some g.groupId, groupTitle := some g.title,
                   groupColor := some g.color, groupUrls := some g.urls }
  | none => plain

/-- Embedding of `setReminder()` of the popup. -/
def setReminder (w : World) (form : Form) (inp : SetInputs) : World × List Call :=
  match form.reminderTime with
  | none => (w, [Call.alert "Please enter valid URL and time"])
  | some reminderTime =>
      if form.ticketUrl = "" then (w, [Call.alert "Please enter valid URL and time"])
      else
        let key := ticketKey inp.nowKey
        ({ w with reminders := w.reminders.set key (setReminderRecord form inp reminderTime),
                  alarms := alarmsCreate w.alarms key reminderTime }, [])

/-- The shortcut table of the command listener. -/
def durationMap (command : String) : Option Int :=
  if command = "quick-reminder-30min" then some 30
  else if command = "quick-reminder-60min" then some 60
  else if command = "quick-reminder-3h" then some 180
  else if command = "quick-reminder-6h" then some 360
  else if command = "quick-reminder-1d" then some 1440
  else if command = "quick-reminder-2d" then some 2880
  else if command = "quick-reminder-3d" then some 4320
  else if command = "quick-reminder-4d" then some 5760
  else if command = "quick-reminder-14d" then some 20160
  else none

/-- Embedding of `formatReminderTime(minutes)`. -/
def formatReminderTime (minutes : Int) : String :=
  if minutes % 1440 = 0 then
    toString (minutes / 1440) ++ " day" ++ (if minutes / 1440 > 1 then "s" else "")
  else if minutes % 60 = 0 then
    toString (minutes / 60) ++ " hour" ++ (if minutes / 60 > 1 then "s" else "")
  else toString minutes ++ " minutes"

/-- Values the command listener awaits: the active-tab query, the two
`Date.now()` readings, the hostname of the tab's URL (`none` when `new URL`
throws), the group lookups (`none` when one rejects, which the listener catches)
and the stored `enableSound` setting. -/
structure CommandInputs where
  activeTabs : List Tab
  nowKey : Nat
  nowStamp : Nat
  hostname : Option String
  fetch : Option GroupFetch
  enableSound : Option Bool
  deriving DecidableEq, Repr

/-- The object the command listener stores under the new key for the active
tab `tab`: the plain fields, and the group fields when the tab is grouped and
the group lookups succeed. -/
def commandRecord (tab : Tab) (reminderTime : Int) (hostname : String)
    (inp : CommandInputs) : Reminder :=
  let timestamp : Int := inp.nowStamp
  let endTime := jsAdd timestamp (jsMul reminderTime 60000)
  let plain : Reminder :=
    { url := tab.url, reminderTime := reminderTime, timestamp := timestamp,
      endTime := endTime, title := shortTitle hostname,
      tabTitle := some tab.title, comment := "" }
  if tab.groupId ≠ 0 ∧ tab.groupId ≠ -1 then
    match inp.fetch with
    | some f =>
        { plain with
            groupId := some tab.groupId, groupTitle := some f.group.title,
            groupColor := some f.group.color,
            groupUrls := some ((f.groupTabs.map (fun t => t.url)).filter
              (fun url => url ≠ tab.url)) }
    | none => plain
  else plain

/-- Embedding of the `chrome.commands.onCommand` listener. -/
def onCommand (w : World) (command : String) (inp : CommandInputs) :
    Except String (World × List Call) :=
  match durationMap command with
  | none => .ok (w, [])
  | some reminderTime =>
      match inp.activeTabs.head? with
      | none => .ok (w, [])
      | some tab =>
          if tab.url = "" then .ok (w, [])
          else
            match inp.hostname with
            | none => .error "TypeError: Invalid URL"
            | some hostname =>
                let key := ticketKey inp.nowKey
                let note : Notification :=
                  { id := none, title := "Reminder Set!",
                    message := formatReminderTime reminderTime ++ " reminder saved for \"" ++
                      tab.title ++ "\"" }
                .ok ({ w with reminders :=
                                w.reminders.set key (commandRecord tab reminderTime hostname inp),
                              alarms := alarmsCreate w.alarms key reminderTime,
                              notifications := notificationsCreate w.notifications note },
                     (if inp.enableSound ≠ some false then [Call.sendMessage "playSound"] else [])
                       ++ [Call.sendMessage "checkOverdue"])

/-! ## Firing (the `chrome.alarms.onAlarm` listener, background.js) -/

/-- Values the alarm listener awaits: the tabs matching the reminder's URL, the
group lookups for the first of them (`none` when one rejects), the stored
`enableSound` setting, whether `playCustomSound` resolves, and `Date.now()`. -/
structure AlarmInputs where
  tabs : List Tab
  fetch : Option GroupFetch
  enableSound : Option Bool
  soundResolves : Bool
  now : Int
  deriving DecidableEq, Repr

/-- The record the alarm listener writes back when the reminder's tab is open
and grouped: the group fields are overwritten from the live group. -/
def refreshRecord (reminder : Reminder) (tab0 : Tab) (f : GroupFetch) : Reminder :=
  let orderedUrls := f.groupTabs.map (fun t => t.url)
  let reminderIndex := indexOf orderedUrls reminder.url
  { reminder with
      groupId := some tab0.groupId, groupTitle := some f.group.title,
      groupColor := some f.group.color, groupUrls := some orderedUrls,
      reminderIndex := some reminderIndex }

/-- The notification the alarm listener shows. -/
def firedNotification (name : String) (reminder : Reminder) : Notification :=
  { id := some name, title := "Reminder: " ++ reminder.title,
    message :=
      if reminder.comment ≠ "" then
        "Note: " ++ reminder.comment ++ "\nURL: " ++ reminder.url
      else "URL: " ++ reminder.url }

/-- The refresh step of the alarm listener: when the first tab matching the
reminder's URL is in a group, the record is overwritten from the live group and
the store is written back; a rejected group lookup ends the listener. -/
def refreshStore (reminders : Store) (name : String) (reminder : Reminder)
    (inp : AlarmInputs) : Except String Store :=
  match inp.tabs with
  | tab0 :: _ =>
      if tab0.groupId ≠ -1 then
        match inp.fetch with
        | some f => .ok (reminders.set name (refreshRecord reminder tab0 f))
        | none => .error "Error: No group with id"
      else .ok reminders
  | [] => .ok reminders

/-- How a handler ends: the world it leaves behind, the calls it made, and the
exception it ended with, if any. -/
structure Outcome where
  world : World
  calls : List Call
  error : Option String
  deriving DecidableEq, Repr

/-- Embedding of the `chrome.alarms.onAlarm` listener for the alarm `name`. A
rejected group lookup ends the listener before anything is written; a rejected
`playCustomSound` ends it after the store write and the notification, before
the overdue check. -/
def onAlarm (w : World) (name : String) (inp : AlarmInputs) : Outcome :=
  match w.reminders.get name with
  | none => { world := w, calls := [], error := none }
  | some reminder =>
      match refreshStore w.reminders name reminder inp with
      | .error e => { world := w, calls := [], error := some e }
      | .ok reminders =>
          let shown : World :=
            { w with reminders := reminders,
                     notifications :=
                       notificationsCreate w.notifications (firedNotification name reminder) }
          if inp.enableSound ≠ some false then
            if inp.soundResolves then
              { world := checkOverdueReminders shown inp.now,
                calls := [Call.sendMessage "playSound"], error := none }
            else
              { world := shown, calls := [Call.sendMessage "playSound"],
                error := some "playSound failed" }
          else { world := checkOverdueReminders shown inp.now, calls := [], error := none }

/-! ## Resolution (`openReminder` in background.js, `cancelReminder` in popup.js) -/

/-- The test `reminder.groupId && reminder.groupUrls`: the record carries group
data. -/
def Reminder.hasGroup (r : Reminder) : Bool :=
  truthyNum r.groupId && r.groupUrls.isSome

/-- The calls `openReminder` awaits, each of which the platform may reject: the
store read at the top, the tab query, a tab, window or group call, the store
write of the clean-up, and the store read of the final overdue check. -/
inductive Awaited where
  | storageGet
  | tabsQuery
  | call (c : Call)
  | storageSet
  | overdueCheck
  deriving DecidableEq, Repr

/-- What the platform answers to `openReminder`: the tabs matching the
reminder's URL, the tabs created by a reconstruction and the id of the new
group, the tab created when a single tab is opened, `Date.now()` of the final
overdue check, and which awaited calls it rejects. -/
structure OpenInputs where
  existingTabs : List Tab
  create : Nat → String → Tab
  newGroupId : Int
  newTab : Tab
  now : Int
  rejects : Awaited → Bool

/-- The two calls that focus a tab. -/
def focusCalls (t : Tab) : List Call :=
  [Call.tabsUpdateActive t.id, Call.windowsUpdateFocused t.windowId]

/-- Calls awaited one after the other: each is a step of its own. -/
def sequential (calls : List Call) : List (List Call) :=
  calls.map (fun c => [c])

/-- The awaited steps of a reconstruction whose first `n` calls are the tab
creations: these are issued together under `Promise.all`, every later call is
awaited on its own. -/
def awaitedSteps (n : Nat) (calls : List Call) : List (List Call) :=
  calls.take n :: sequential (calls.drop n)

/-- The awaited steps of `restoreTabGroup(reminder)`. -/
def restoreSteps (r : Reminder) (create : Nat → String → Tab) (newGroupId : Int) :
    Except String (List (List Call)) :=
  match restoreTabGroup r create newGroupId with
  | .ok calls => .ok (awaitedSteps (restoreOrder r).length calls)
  | .error e => .error e

/-- The tab and window calls of `openReminder` for a stored reminder, as awaited
steps: the part between the tab query and the clean-up. -/
def openSteps (reminder : Reminder) (inp : OpenInputs) : Except String (List (List Call)) :=
  match inp.existingTabs with
  | existingTab :: _ =>
      if existingTab.groupId ≠ -1 then .ok (sequential (focusCalls existingTab))
      else if reminder.hasGroup then restoreSteps reminder inp.create inp.newGroupId
      else .ok (sequential (focusCalls existingTab))
  | [] =>
      if reminder.hasGroup then restoreSteps reminder inp.create inp.newGroupId
      else .ok (sequential [Call.tabsCreate reminder.url true,
                            Call.windowsUpdateFocused inp.newTab.windowId])

/-- Issues the steps in order: all calls of a step are issued, and the run ends
with a rejection at the first step that has a rejected call. Returns the calls
issued and the rejection, if any. -/
def runSteps (rejects : Awaited → Bool) : List (List Call) → List Call × Option String
  | [] => ([], none)
  | step :: rest =>
      if step.any (fun c => rejects (.call c)) then (step, some "platform call rejected")
      else (step ++ (runSteps rejects rest).1, (runSteps rejects rest).2)

/-- Embedding of `openReminder(notificationId, shouldDelete)`. A rejected
awaited call ends the function there: before the clean-up when it is the store
read, the tab query or a tab, window or group call; before the store is written
when it is the store write; after the deletion and before the icon update when
it is the read of the overdue check. `chrome.alarms.clear` and
`chrome.notifications.clear` are not awaited. -/
def openReminder (w : World) (notificationId : String) (shouldDelete : Bool)
    (inp : OpenInputs) : Outcome :=
  if inp.rejects .storageGet then
    { world := w, calls := [], error := some "storage.sync.get rejected" }
  else
    match w.reminders.get notificationId with
    | none =>
        { world := { w with notifications := notificationsClear w.notifications notificationId },
          calls := [], error := none }
    | some reminder =>
        if inp.rejects .tabsQuery then
          { world := w, calls := [], error := some "tabs.query rejected" }
        else
          match openSteps reminder inp with
          | .error e => { world := w, calls := [], error := some e }
          | .ok steps =>
              let run := runSteps inp.rejects steps
              match run.2 with
              | some e => { world := w, calls := run.1, error := some e }
              | none =>
                  if shouldDelete then
                    if inp.rejects .storageSet then
                      { world := w, calls := run.1, error := some "storage.sync.set rejected" }
                    else
                      let cleared : World :=
                        { reminders := w.reminders.delete notificationId,
                          alarms := alarmsClear w.alarms notificationId,
                          notifications := notificationsClear w.notifications notificationId,
                          iconOverdue := w.iconOverdue }
                      if inp.rejects .overdueCheck then
                        { world := cleared, calls := run.1,
                          error := some "storage.sync.get rejected" }
                      else
                        { world := checkOverdueReminders cleared inp.now, calls := run.1,
                          error := none }
                  else { world := w, calls := run.1, error := none }

/-- Embedding of `cancelReminder(key)` of the popup. The icon is recomputed by
the background page when it receives the `checkOverdue` message. -/
def cancelReminder (w : World) (key : String) : World × List Call :=
  match w.reminders.get key with
  | some _ =>
      ({ w with reminders := w.reminders.delete key, alarms := alarmsClear w.alarms key },
       [Call.sendMessage "checkOverdue"])
  | none => (w, [])

/-- The tab count the popup list prints for a reminder with a group,
`reminder.groupUrls ? reminder.groupUrls.length + 1 : 1` in
`updateActiveRemindersList`: the stored URLs plus the reminder's own tab. `none`
when the record has no truthy `groupId` and no group line is printed. -/
def shownTabCount (r : Reminder) : Option Nat :=
  if truthyNum r.groupId then
    some (match r.groupUrls with
      | some urls => urls.length + 1
      | none => 1)
  else none

/-! ## Operations that write reminder records -/

/-- The three operations that write a record into the store. -/
inductive StoreWrite where
  | popup (form : Form) (inp : SetInputs)
  | shortcut (command : String) (inp : CommandInputs)
  | alarm (name : String) (inp : AlarmInputs)
  deriving DecidableEq, Repr

/-- The world a store-writing operation leaves behind. The command listener
throws only before it writes anything, so the world is unchanged then. -/
def StoreWrite.run (w : World) : StoreWrite → World
  | .popup form inp => (setReminder w form inp).1
  | .shortcut command inp =>
      match onCommand w command inp with
      | .ok (w', _) => w'
      | .error _ => w
  | .alarm name inp => (onAlarm w name inp).world

/-- Whether the operation is one of the two creation paths. -/
def StoreWrite.isCreation : StoreWrite → Bool
  | .popup _ _ => true
  | .shortcut _ _ => true
  | .alarm _ _ => false

/-- The record an operation writes under `key`: the entry found there after the
operation when it is not the entry that was there before. -/
def written (w : World) (op : StoreWrite) (key : String) : Option Reminder :=
  if (op.run w).reminders.get key = w.reminders.get key then none
  else (op.run w).reminders.get key

/-! ## The open order in the words of the specification -/

/-- The specified open order: the group URLs without the reminder's URL, with
the reminder's URL appended when the index is missing or negative and inserted
at `min(reminderIndex, length)` otherwise. -/
def specOrder (groupUrls : List String) (url : String) (reminderIndex : Option Int) :
    List String :=
  let l := groupUrls.filter (fun u => u ≠ url)
  match reminderIndex with
  | none => l ++ [url]
  | some i => if i < 0 then l ++ [url] else l.insertIdx (min i.toNat l.length) url

/-! ## Sample values -/

/-- A world with nothing stored, scheduled or shown. -/
def emptyWorld : World :=
  { reminders := [], alarms := [], notifications := [], iconOverdue := false }

/-- A tab of group `7` in window `1`. -/
def groupedTab (id : Nat) (url : String) : Tab :=
  { id := id, windowId := 1, groupId := 7, url := url, title := "page" }

/-- A group of three tabs, in tab-strip order. -/
def abcTabs : List Tab :=
  [groupedTab 1 "https://a.test/", groupedTab 2 "https://b.test/", groupedTab 3 "https://c.test/"]

/-- The lookups for the group of `abcTabs`. -/
def abcFetch : GroupFetch :=
  { group := { title := "Sprint", color := "blue" }, groupTabs := abcTabs }

/-- The popup is submitted on the middle tab of `abcTabs` for 30 minutes. -/
def abcPopup : StoreWrite :=
  .popup { ticketUrl := "https://b.test/", reminderTime := some 30, comment := "" }
    { nowKey := 5, nowStamp := 5, activeTabs := [groupedTab 2 "https://b.test/"],
      lookup := { tab := some (groupedTab 2 "https://b.test/"), fetch := some abcFetch },
      hostname := some "b.test" }

/-- The 30-minute shortcut is pressed on the middle tab of `abcTabs`. -/
def abcShortcut : StoreWrite :=
  .shortcut "quick-reminder-30min"
    { activeTabs := [groupedTab 2 "https://b.test/"], nowKey := 5, nowStamp := 5,
      hostname := some "b.test", fetch := some abcFetch, enableSound := none }

/-- A stored reminder for the middle tab of `abcTabs` without group fields. -/
def plainReminder : Reminder :=
  { url := "https://b.test/", reminderTime := 30, timestamp := 5, endTime := 1800005,
    title := "b.test", tabTitle := some "page", comment := "" }

/-- The record both creation paths store for the middle tab of `abcTabs`. -/
def abcRecord : Reminder :=
  { url := "https://b.test/", reminderTime := 30, timestamp := 5, endTime := 1800005,
    title := "b.test", tabTitle := some "page", comment := "",
    groupId := some 7, groupTitle := some "Sprint", groupColor := some "blue",
    groupUrls := some ["https://a.test/", "https://c.test/"] }

/-- The record the alarm listener stores for `plainReminder` while the tabs of
`abcTabs` are open. -/
def abcRefreshed : Reminder :=
  { url := "https://b.test/", reminderTime := 30, timestamp := 5, endTime := 1800005,
    title := "b.test", tabTitle := some "page", comment := "",
    groupId := some 7, groupTitle := some "Sprint", groupColor := some "blue",
    groupUrls := some ["https://a.test/", "https://b.test/", "https://c.test/"],
    reminderIndex := some 1 }

/-- A world whose store holds `plainReminder` under `reminder_5`. -/
def plainWorld : World :=
  { reminders := [("reminder_5", plainReminder)], alarms := [("reminder_5", 30)],
    notifications := [], iconOverdue := false }

/-- The alarm of `reminder_5` fires while the tabs of `abcTabs` are open. -/
def abcAlarm : StoreWrite :=
  .alarm "reminder_5"
    { tabs := [groupedTab 2 "https://b.test/"], fetch := some abcFetch, enableSound := none,
      soundResolves := true, now := 1800005 }

/-- A world whose store holds a reminder for a URL with a `*` in its query. -/
def starWorld : World :=
  { reminders := [("reminder_5", { plainReminder with url := "https://b.test/find?q=*" })],
    alarms := [("reminder_5", 30)], notifications := [], iconOverdue := false }

/-- The alarm of `reminder_5` fires in `starWorld`; the URL query, which reads
its argument as a match pattern, returns a grouped tab with another query text. -/
def starAlarm : StoreWrite :=
  .alarm "reminder_5"
    { tabs := [groupedTab 2 "https://b.test/find?q=lean"],
      fetch := some { group := { title := "Sprint", color := "blue" },
                      groupTabs := [groupedTab 1 "https://a.test/",
                                    groupedTab 2 "https://b.test/find?q=lean"] },
      enableSound := none, soundResolves := true, now := 1800005 }

/-- A reminder for a page at the anchor `#end` whose group also holds the same
page at the anchor `#top`, as the creation paths store it. -/
def anchorReminder : Reminder :=
  { url := "https://x.test/doc#end", reminderTime := 30, timestamp := 5, endTime := 1800005,
    title := "x.test", tabTitle := some "doc", comment := "",
    groupId := some 7, groupTitle := some "Sprint", groupColor := some "blue",
    groupUrls := some ["https://x.test/doc#top"] }

/-- A tab creation that gives the `i`-th new tab the id `100 + i`, in window `1`,
with the URL it was created for. -/
def freshTab (i : Nat) (url : String) : Tab :=
  { id := 100 + i, windowId := 1, groupId := -1, url := url, title := "" }

/-- What `setReminder` awaits when the popup is open on an ungrouped tab at
time `now`. -/
def loneInputs (now : Nat) : SetInputs :=
  { nowKey := now, nowStamp := now,
    activeTabs := [{ id := 2, windowId := 1, groupId := -1, url := "https://b.test/",
                     title := "page" }],
    lookup := { tab := none, fetch := none }, hostname := some "b.test" }

/-- The store after the popup took a reminder of `-28333334` minutes at the
timestamp `1700000040000`, a whole number of minutes. -/
def epochWorld : World :=
  (setReminder emptyWorld
    { ticketUrl := "https://b.test/", reminderTime := some (-28333334), comment := "" }
    (loneInputs 1700000040000)).1

/-- A world with an alarm named `reminder_5` and no reminder stored under that
key, as left behind when the synced store lost the entry on another device. -/
def orphanWorld : World :=
  { reminders := [], alarms := [("reminder_5", 30)], notifications := [], iconOverdue := false }

/-- What `openReminder` awaits when no tab matches the reminder's URL and every
call resolves. -/
def closedInputs : OpenInputs :=
  { existingTabs := [], create := freshTab, newGroupId := 9, newTab := freshTab 0 "https://b.test/",
    now := 1800006, rejects := fun _ => false }

/-- What `openReminder` awaits when the reminder's page is open in an ungrouped
tab and every call resolves. -/
def looseInputs : OpenInputs :=
  { existingTabs := [{ id := 2, windowId := 1, groupId := -1, url := "https://b.test/",
                       title := "page" }],
    create := freshTab, newGroupId := 9, newTab := freshTab 0 "https://b.test/",
    now := 1800006, rejects := fun _ => false }

/-- A world whose store holds the refreshed record `abcRefreshed`. -/
def refreshedWorld : World :=
  { reminders := [("reminder_5", abcRefreshed)], alarms := [("reminder_5", 30)],
    notifications := [], iconOverdue := false }

/-- A world whose store holds a reminder with a local file among its group
URLs. -/
def fileWorld : World :=
  { reminders := [("reminder_5",
      { abcRecord with groupUrls := some ["file:///notes.txt", "https://c.test/"] })],
    alarms := [("reminder_5", 30)], notifications := [], iconOverdue := false }

/-- What `openReminder` awaits when no tab matches and the platform rejects the
creation of a tab for the local file. -/
def fileInputs : OpenInputs :=
  { existingTabs := [], create := freshTab, newGroupId := 9, newTab := freshTab 0 "https://b.test/",
    now := 1800006,
    rejects := fun a => a = Awaited.call (Call.tabsCreate "file:///notes.txt" false) }

/-- What the alarm listener awaits while the tabs of `abcTabs` are open: the
inputs of `abcAlarm`. -/
def abcAlarmInputs : AlarmInputs :=
  { tabs := [groupedTab 2 "https://b.test/"], fetch := some abcFetch, enableSound := none,
    soundResolves := true, now := 1800005 }

/-! ## Lemmas on the store and on lists -/

theorem Store.get_set (s : Store) (k k' : String) (v : Reminder) :
    Store.get (Store.set s k v) k' = if k = k' then some v else Store.get s k' := by
  induction s with
  | nil => simp [Store.set, Store.get]
  | cons kv rest ih =>
      obtain ⟨a, b⟩ := kv
      by_cases hak : a = k
      · subst hak
        by_cases hk : a = k' <;> simp [Store.set, Store.get, hk]
      · by_cases hk : k = k'
        · subst hk
          simp [Store.set, Store.get, hak, ih]
        · by_cases hak' : a = k'
          · subst hak'
            simp [Store.set, Store.get, hak, hk]
          · simp [Store.set, Store.get, hak, hak', hk, ih]

theorem Store.get_delete_self (s : Store) (k : String) :
    Store.get (Store.delete s k) k = none := by
  induction s with
  | nil => simp [Store.delete, Store.get]
  | cons kv rest ih =>
      obtain ⟨a, b⟩ := kv
      by_cases hak : a = k
      · simpa [Store.delete, List.filter_cons, hak] using ih
      · simpa [Store.delete, List.filter_cons, hak, Store.get] using ih

theorem take_cons_drop_eq_insertIdx (l : List String) (x : String) (k : Nat)
    (h : k ≤ l.length) : l.take k ++ x :: l.drop k = l.insertIdx k x := by
  induction k generalizing l with
  | zero => simp
  | succ n ih =>
      cases l with
      | nil => simp at h
      | cons a t =>
          simp only [List.length_cons, Nat.succ_le_succ_iff] at h
          simp [List.insertIdx_succ_cons, ih t h]

theorem spliceInsert_of_nonneg (xs : List String) (i : Int) (x : String) (h : 0 ≤ i) :
    spliceInsert xs i x =
      xs.take (min i.toNat xs.length) ++ x :: xs.drop (min i.toNat xs.length) := by
  have hk : (min i (xs.length : Int)).toNat = min i.toNat xs.length := by omega
  simp only [spliceInsert, not_lt.mpr h, if_false, hk]

/-- The open order is the other URLs with the reminder's URL at `insertPos`. -/
theorem restoreOrder_eq_take_drop (r : Reminder) :
    restoreOrder r =
      ((r.groupUrls.getD []).filter (fun url => url ≠ r.url)).take (insertPos r) ++
        r.url :: ((r.groupUrls.getD []).filter (fun url => url ≠ r.url)).drop (insertPos r) := by
  unfold restoreOrder insertPos
  cases r.reminderIndex with
  | none => simp
  | some i =>
      by_cases h : i ≥ 0
      · simp only [h, if_true]
        exact spliceInsert_of_nonneg _ _ _ h
      · simp [h]

theorem insertPos_le (r : Reminder) :
    insertPos r ≤ ((r.groupUrls.getD []).filter (fun url => url ≠ r.url)).length := by
  unfold insertPos
  cases r.reminderIndex with
  | none => simp
  | some i =>
      by_cases h : i ≥ 0
      · simp only [h, if_true]
        exact Nat.min_le_right _ _
      · simp [h]

theorem restoreOrder_ne_nil (r : Reminder) : restoreOrder r ≠ [] := by
  rw [restoreOrder_eq_take_drop]
  simp

theorem createAll_ne_nil (create : Nat → String → Tab) (i : Nat) (urls : List String)
    (h : urls ≠ []) : createAll create i urls ≠ [] := by
  cases urls with
  | nil => exact absurd rfl h
  | cons u us => simp [createAll]

theorem focusTarget_of_ne_nil (r : Reminder) (createdTabs : List Tab)
    (h : createdTabs ≠ []) : ∃ t, focusTarget r createdTabs = some t := by
  unfold focusTarget
  cases hf : createdTabs.find? (fun tab => stripHash tab.url = stripHash r.url) with
  | some t => exact ⟨t, rfl⟩
  | none =>
      cases createdTabs with
      | nil => exact absurd rfl h
      | cons t ts => exact ⟨t, rfl⟩

/-- The calls of a reconstruction: the tab creations in open order, the
grouping, the optional title and colour update, and the two focus calls for the
focus target. -/
theorem restoreTabGroup_eq (r : Reminder) (create : Nat → String → Tab) (newGroupId : Int) :
    ∃ t, focusTarget r (createAll create 0 (restoreOrder r)) = some t ∧
      restoreTabGroup r create newGroupId =
        .ok ((restoreOrder r).map (fun url => Call.tabsCreate url false) ++
          [Call.tabsGroup ((createAll create 0 (restoreOrder r)).map (fun tab => tab.id))] ++
          styleCalls r newGroupId ++
          [Call.tabsUpdateActive t.id, Call.windowsUpdateFocused t.windowId]) := by
  obtain ⟨t, ht⟩ := focusTarget_of_ne_nil r (createAll create 0 (restoreOrder r))
    (createAll_ne_nil create 0 _ (restoreOrder_ne_nil r))
  exact ⟨t, ht, by simp only [restoreTabGroup, ht]⟩

theorem styleCalls_mem (r : Reminder) (newGroupId : Int) (c : Call)
    (h : c ∈ styleCalls r newGroupId) : ∃ g title color, c = Call.tabGroupsUpdate g title color := by
  unfold styleCalls at h
  by_cases hs : (truthyStr r.groupTitle || truthyStr r.groupColor) = true
  · rw [if_pos hs, List.mem_singleton] at h
    exact ⟨_, _, _, h⟩
  · rw [if_neg hs] at h
    simp at h

theorem filter_ne_not_mem (l : List String) (x : String) :
    x ∉ l.filter (fun u => u ≠ x) := by
  simp [List.mem_filter]

/-! ## What each operation writes -/

theorem written_of_set (old : Store) (k key : String) (v r : Reminder)
    (h : (if Store.get (Store.set old k v) key = Store.get old key then none
          else Store.get (Store.set old k v) key) = some r) :
    key = k ∧ r = v := by
  rw [Store.get_set] at h
  by_cases hk : k = key
  · simp only [hk, if_true] at h
    split_ifs at h
    exact ⟨hk.symm, (Option.some.inj h).symm⟩
  · simp [hk] at h

theorem written_popup (w : World) (form : Form) (inp : SetInputs) (key : String)
    (r : Reminder) (h : written w (.popup form inp) key = some r) :
    ∃ m, form.reminderTime = some m ∧ form.ticketUrl ≠ "" ∧ key = ticketKey inp.nowKey ∧
      r = setReminderRecord form inp m := by
  unfold written StoreWrite.run setReminder at h
  cases hm : form.reminderTime with
  | none => simp [hm] at h
  | some m =>
      by_cases hu : form.ticketUrl = ""
      · simp [hm, hu] at h
      · simp only [hm, hu, if_false] at h
        obtain ⟨h1, h2⟩ := written_of_set _ _ _ _ _ h
        exact ⟨m, rfl, hu, h1, h2⟩

theorem written_shortcut (w : World) (command : String) (inp : CommandInputs) (key : String)
    (r : Reminder) (h : written w (.shortcut command inp) key = some r) :
    ∃ m tab hostname, durationMap command = some m ∧ inp.activeTabs.head? = some tab ∧
      tab.url ≠ "" ∧ inp.hostname = some hostname ∧ key = ticketKey inp.nowKey ∧
      r = commandRecord tab m hostname inp := by
  unfold written StoreWrite.run onCommand at h
  cases hm : durationMap command with
  | none => simp [hm] at h
  | some m =>
      cases ht : inp.activeTabs.head? with
      | none => simp [hm, ht] at h
      | some tab =>
          by_cases hu : tab.url = ""
          · simp [hm, ht, hu] at h
          · cases hh : inp.hostname with
            | none => simp [hm, ht, hu, hh] at h
            | some hostname =>
                simp only [hm, ht, hu, hh, if_false] at h
                obtain ⟨h1, h2⟩ := written_of_set _ _ _ _ _ h
                exact ⟨m, tab, hostname, rfl, rfl, hu, rfl, h1, h2⟩

theorem onAlarm_reminders (w : World) (name : String) (inp : AlarmInputs) :
    (onAlarm w name inp).world.reminders = w.reminders ∨
      ∃ old st, w.reminders.get name = some old ∧
        refreshStore w.reminders name old inp = .ok st ∧
        (onAlarm w name inp).world.reminders = st := by
  unfold onAlarm
  cases ho : w.reminders.get name with
  | none => exact Or.inl rfl
  | some old =>
      dsimp only
      cases hr : refreshStore w.reminders name old inp with
      | error e => exact Or.inl rfl
      | ok st =>
          right
          refine ⟨old, st, rfl, hr, ?_⟩
          dsimp only
          split_ifs <;> rfl

theorem refreshStore_ok (reminders st : Store) (name : String) (old : Reminder)
    (inp : AlarmInputs) (h : refreshStore reminders name old inp = .ok st) :
    st = reminders ∨ ∃ tab0 rest f, inp.tabs = tab0 :: rest ∧ tab0.groupId ≠ -1 ∧
      inp.fetch = some f ∧ st = reminders.set name (refreshRecord old tab0 f) := by
  unfold refreshStore at h
  cases htabs : inp.tabs with
  | nil =>
      left
      simp only [htabs, Except.ok.injEq] at h
      exact h.symm
  | cons tab0 rest =>
      simp only [htabs] at h
      by_cases hg : tab0.groupId ≠ -1
      · rw [if_pos hg] at h
        cases hf : inp.fetch with
        | none => simp [hf] at h
        | some f =>
            right
            simp only [hf, Except.ok.injEq] at h
            exact ⟨tab0, rest, f, rfl, hg, rfl, h.symm⟩
      · left
        rw [if_neg hg] at h
        simp only [Except.ok.injEq] at h
        exact h.symm

theorem written_alarm (w : World) (name : String) (inp : AlarmInputs) (key : String)
    (r : Reminder) (h : written w (.alarm name inp) key = some r) :
    ∃ old tab0 rest f, w.reminders.get name = some old ∧ inp.tabs = tab0 :: rest ∧
      tab0.groupId ≠ -1 ∧ inp.fetch = some f ∧ key = name ∧ r = refreshRecord old tab0 f := by
  unfold written StoreWrite.run at h
  rcases onAlarm_reminders w name inp with hsame | ⟨old, st, ho, hst, hw⟩
  · simp [hsame] at h
  · rw [hw] at h
    rcases refreshStore_ok _ _ _ _ _ hst with hsame | ⟨tab0, rest, f, htabs, hg, hf, hset⟩
    · simp [hsame] at h
    · rw [hset] at h
      obtain ⟨h1, h2⟩ := written_of_set _ _ _ _ _ h
      exact ⟨old, tab0, rest, f, ho, htabs, hg, hf, h1, h2⟩

/-! ## Lemmas on `indexOf` -/

theorem indexOf_ge (xs : List String) (x : String) : -1 ≤ indexOf xs x := by
  induction xs with
  | nil => simp [indexOf]
  | cons y ys ih =>
      unfold indexOf
      by_cases hy : y = x
      · simp [hy]
      · simp only [hy, if_false]
        split_ifs <;> omega

theorem indexOf_lt_length (xs : List String) (x : String) : indexOf xs x < xs.length := by
  induction xs with
  | nil => simp [indexOf]
  | cons y ys ih =>
      unfold indexOf
      by_cases hy : y = x
      · simp only [hy, if_true, List.length_cons]
        omega
      · simp only [hy, if_false, List.length_cons]
        split_ifs <;> push_cast <;> omega

theorem indexOf_nonneg_iff (xs : List String) (x : String) : 0 ≤ indexOf xs x ↔ x ∈ xs := by
  induction xs with
  | nil => simp [indexOf]
  | cons y ys ih =>
      unfold indexOf
      by_cases hy : y = x
      · simp [hy]
      · have hne : ¬ x = y := fun h => hy h.symm
        simp only [hy, if_false, List.mem_cons, hne, false_or]
        rw [← ih]
        have := indexOf_ge ys x
        split_ifs <;> omega

/-! ## Lemmas on the created tabs and the focus target -/

theorem createAll_getElem? (create : Nat → String → Tab) (i j : Nat) (urls : List String) :
    (createAll create i urls)[j]? = (urls[j]?).map (create (i + j)) := by
  induction urls generalizing i j with
  | nil => simp [createAll]
  | cons u us ih =>
      cases j with
      | zero => simp [createAll]
      | succ n =>
          simp only [createAll, List.getElem?_cons_succ, ih]
          have : i + 1 + n = i + (n + 1) := by omega
          rw [this]

theorem restoreOrder_getElem?_insertPos (r : Reminder) :
    (restoreOrder r)[insertPos r]? = some r.url := by
  have hlen : (((r.groupUrls.getD []).filter (fun url => url ≠ r.url)).take
      (insertPos r)).length = insertPos r := by
    rw [List.length_take]
    exact min_eq_left (insertPos_le r)
  rw [restoreOrder_eq_take_drop, List.getElem?_append_right (le_of_eq hlen), hlen,
    Nat.sub_self]
  simp

/-- The first element satisfying `p` is found at or before any position that holds
an element satisfying `p`. -/
theorem find?_first_le (p : Tab → Bool) (l : List Tab) (k : Nat) (t : Tab)
    (hk : l[k]? = some t) (hp : p t = true) :
    ∃ k0 t0, k0 ≤ k ∧ l[k0]? = some t0 ∧ p t0 = true ∧ l.find? p = some t0 ∧
      ∀ j, j < k0 → ∀ t', l[j]? = some t' → p t' = false := by
  induction l generalizing k with
  | nil => simp at hk
  | cons a rest ih =>
      by_cases ha : p a = true
      · refine ⟨0, a, Nat.zero_le _, by simp, ha, List.find?_cons_of_pos _ ha, ?_⟩
        intro j hj
        exact absurd hj (Nat.not_lt_zero _)
      · cases k with
        | zero =>
            simp only [List.getElem?_cons_zero, Option.some.injEq] at hk
            rw [hk] at ha
            exact absurd hp ha
        | succ n =>
            rw [List.getElem?_cons_succ] at hk
            obtain ⟨k0, t0, hle, hget, hpt, hfind, hbefore⟩ := ih n hk
            refine ⟨k0 + 1, t0, Nat.succ_le_succ hle, by rw [List.getElem?_cons_succ]; exact hget,
              hpt, by rw [List.find?_cons_of_neg _ ha]; exact hfind, ?_⟩
            intro j hj t' ht'
            cases j with
            | zero =>
                simp only [List.getElem?_cons_zero, Option.some.injEq] at ht'
                rw [← ht']
                simpa using ha
            | succ m =>
                rw [List.getElem?_cons_succ] at ht'
                exact hbefore m (by omega) t' ht'

/-! ## Lemmas on resolution -/

theorem alarmsClear_not_mem (alarms : List (String × Int)) (name : String) (d : Int) :
    (name, d) ∉ alarmsClear alarms name := by
  simp [alarmsClear, List.mem_filter]

theorem notificationsClear_idem (ns : List Notification) (id : String) :
    notificationsClear (notificationsClear ns id) id = notificationsClear ns id := by
  simp [notificationsClear, List.filter_filter]

theorem cancelReminder_of_absent (w : World) (key : String)
    (h : w.reminders.get key = none) : cancelReminder w key = (w, []) := by
  unfold cancelReminder
  rw [h]

theorem sequential_flatten (calls : List Call) : (sequential calls).flatten = calls := by
  induction calls with
  | nil => rfl
  | cons c cs ih =>
      unfold sequential at ih ⊢
      simp only [List.map_cons, List.flatten_cons, List.singleton_append, ih]

theorem awaitedSteps_flatten (n : Nat) (calls : List Call) :
    (awaitedSteps n calls).flatten = calls := by
  unfold awaitedSteps
  rw [List.flatten_cons, sequential_flatten, List.take_append_drop]

/-- The calls a run issues are an initial part of the calls of its steps. -/
theorem runSteps_prefix (rejects : Awaited → Bool) (steps : List (List Call)) :
    (runSteps rejects steps).1 <+: steps.flatten := by
  induction steps with
  | nil => exact List.prefix_refl _
  | cons step rest ih =>
      unfold runSteps
      rw [List.flatten_cons]
      split_ifs
      · exact List.prefix_append _ _
      · obtain ⟨tail, htail⟩ := ih
        exact ⟨tail, by rw [List.append_assoc, htail]⟩

/-- A run in which no call is rejected issues every call and ends normally. -/
theorem runSteps_of_resolve (rejects : Awaited → Bool) (steps : List (List Call))
    (h : ∀ c ∈ steps.flatten, rejects (.call c) = false) :
    runSteps rejects steps = (steps.flatten, none) := by
  induction steps with
  | nil => rfl
  | cons step rest ih =>
      have hstep : step.any (fun c => rejects (.call c)) = false := by
        rw [List.any_eq_false]
        intro c hc
        have := h c (by rw [List.flatten_cons]; exact List.mem_append_left _ hc)
        simp [this]
      have hrest := ih (fun c hc => h c (by rw [List.flatten_cons]; exact List.mem_append_right _ hc))
      unfold runSteps
      simp only [hstep, Bool.false_eq_true, if_false, hrest, List.flatten_cons]

/-- The steps of `openReminder` for a stored reminder exist, and their calls are
those of the case at hand. -/
theorem openSteps_flatten (reminder : Reminder) (inp : OpenInputs) :
    ∃ steps, openSteps reminder inp = .ok steps ∧
      (∀ t rest, inp.existingTabs = t :: rest → t.groupId ≠ -1 →
        steps.flatten = [Call.tabsUpdateActive t.id, Call.windowsUpdateFocused t.windowId]) ∧
      (∀ t rest, inp.existingTabs = t :: rest → t.groupId = -1 → reminder.hasGroup = false →
        steps.flatten = [Call.tabsUpdateActive t.id, Call.windowsUpdateFocused t.windowId]) ∧
      (inp.existingTabs = [] → reminder.hasGroup = false →
        steps.flatten = [Call.tabsCreate reminder.url true,
                      Call.windowsUpdateFocused inp.newTab.windowId]) ∧
      (((∃ t rest, inp.existingTabs = t :: rest ∧ t.groupId = -1) ∨ inp.existingTabs = []) →
        reminder.hasGroup = true →
        ∃ target, focusTarget reminder (createAll inp.create 0 (restoreOrder reminder)) =
            some target ∧
          steps.flatten =
            (restoreOrder reminder).map (fun url => Call.tabsCreate url false) ++
              [Call.tabsGroup ((createAll inp.create 0 (restoreOrder reminder)).map
                (fun tab => tab.id))] ++
              styleCalls reminder inp.newGroupId ++
              [Call.tabsUpdateActive target.id, Call.windowsUpdateFocused target.windowId]) := by
  obtain ⟨target, htarget, hrun⟩ := restoreTabGroup_eq reminder inp.create inp.newGroupId
  have hrestore : restoreSteps reminder inp.create inp.newGroupId =
      .ok (awaitedSteps (restoreOrder reminder).length
        ((restoreOrder reminder).map (fun url => Call.tabsCreate url false) ++
          [Call.tabsGroup ((createAll inp.create 0 (restoreOrder reminder)).map
            (fun tab => tab.id))] ++
          styleCalls reminder inp.newGroupId ++
          [Call.tabsUpdateActive target.id, Call.windowsUpdateFocused target.windowId])) := by
    unfold restoreSteps
    rw [hrun]
  unfold openSteps
  cases htabs : inp.existingTabs with
  | nil =>
      by_cases hg : reminder.hasGroup = true
      · refine ⟨_, by rw [if_pos hg]; exact hrestore, ?_, ?_, ?_, ?_⟩
        · intro t rest h; cases h
        · intro t rest h; cases h
        · intro _ hno; rw [hg] at hno; cases hno
        · intro _ _
          exact ⟨target, htarget, awaitedSteps_flatten _ _⟩
      · refine ⟨_, by rw [if_neg hg], ?_, ?_, ?_, ?_⟩
        · intro t rest h; cases h
        · intro t rest h; cases h
        · intro _ _; exact sequential_flatten _
        · intro _ hyes; exact absurd hyes hg
  | cons existingTab others =>
      dsimp only
      by_cases he : existingTab.groupId ≠ -1
      · refine ⟨_, by rw [if_pos he], ?_, ?_, ?_, ?_⟩
        · intro t rest h _
          cases h
          exact sequential_flatten _
        · intro t rest h hno
          cases h
          exact absurd hno he
        · intro h; cases h
        · intro h _
          rcases h with ⟨t, rest, h, hno⟩ | h
          · cases h
            exact absurd hno he
          · cases h
      · by_cases hg : reminder.hasGroup = true
        · refine ⟨_, by rw [if_neg he, if_pos hg]; exact hrestore, ?_, ?_, ?_, ?_⟩
          · intro t rest h hyes
            cases h
            exact absurd hyes he
          · intro t rest h _ hno
            rw [hg] at hno; cases hno
          · intro h; cases h
          · intro _ _
            exact ⟨target, htarget, awaitedSteps_flatten _ _⟩
        · refine ⟨_, by rw [if_neg he, if_neg hg], ?_, ?_, ?_, ?_⟩
          · intro t rest h hyes
            cases h
            exact absurd hyes he
          · intro t rest h _ _
            cases h
            exact sequential_flatten _
          · intro h; cases h
          · intro _ hyes; exact absurd hyes hg

theorem openReminder_of_absent (w : World) (id : String) (shouldDelete : Bool)
    (inp : OpenInputs) (hread : inp.rejects .storageGet = false)
    (h : w.reminders.get id = none) :
    openReminder w id shouldDelete inp =
      { world := { w with notifications := notificationsClear w.notifications id },
        calls := [], error := none } := by
  unfold openReminder
  simp only [hread, Bool.false_eq_true, if_false, h]

/-- For a stored reminder whose store read and tab query resolve, the calls
`openReminder` issues are those of the run of its steps. -/
theorem openReminder_calls (w : World) (id : String) (shouldDelete : Bool)
    (inp : OpenInputs) (reminder : Reminder) (steps : List (List Call))
    (hread : inp.rejects .storageGet = false) (hget : w.reminders.get id = some reminder)
    (hquery : inp.rejects .tabsQuery = false) (hsteps : openSteps reminder inp = .ok steps) :
    (openReminder w id shouldDelete inp).calls = (runSteps inp.rejects steps).1 := by
  unfold openReminder
  simp only [hread, Bool.false_eq_true, if_false, hget, hquery, hsteps]
  cases (runSteps inp.rejects steps).2 with
  | some e => rfl
  | none =>
      dsimp only
      split_ifs <;> rfl

/-- For a stored reminder, when every awaited call resolves, `openReminder`
issues all calls of its steps and, when asked to delete, removes the record, its
alarm and its notification and recomputes the icon. -/
theorem openReminder_of_resolve (w : World) (id : String) (shouldDelete : Bool)
    (inp : OpenInputs) (reminder : Reminder) (steps : List (List Call))
    (hall : ∀ a, inp.rejects a = false) (hget : w.reminders.get id = some reminder)
    (hsteps : openSteps reminder inp = .ok steps) :
    openReminder w id shouldDelete inp =
      { world :=
          if shouldDelete then
            checkOverdueReminders
              { reminders := w.reminders.delete id, alarms := alarmsClear w.alarms id,
                notifications := notificationsClear w.notifications id,
                iconOverdue := w.iconOverdue } inp.now
          else w,
        calls := steps.flatten, error := none } := by
  have hrun := runSteps_of_resolve inp.rejects steps (fun c _ => hall (.call c))
  unfold openReminder
  simp only [hall, Bool.false_eq_true, if_false, hget, hsteps, hrun]
  cases shouldDelete <;> simp

/-! ## Lemmas on the alarm-fire refresh -/

theorem onAlarm_of_absent (w : World) (name : String) (inp : AlarmInputs)
    (h : w.reminders.get name = none) :
    onAlarm w name inp = { world := w, calls := [], error := none } := by
  unfold onAlarm
  rw [h]

/-- When the reminder is stored and its first matching tab is grouped with the
group lookups succeeding, the listener leaves the refreshed record in the store,
whether or not the sound call resolves. -/
theorem onAlarm_reminders_of_grouped (w : World) (name : String) (inp : AlarmInputs)
    (old : Reminder) (tab0 : Tab) (rest : List Tab) (f : GroupFetch)
    (hget : w.reminders.get name = some old) (htabs : inp.tabs = tab0 :: rest)
    (hg : tab0.groupId ≠ -1) (hf : inp.fetch = some f) :
    (onAlarm w name inp).world.reminders =
      w.reminders.set name (refreshRecord old tab0 f) := by
  have hst : refreshStore w.reminders name old inp =
      .ok (w.reminders.set name (refreshRecord old tab0 f)) := by
    unfold refreshStore
    rw [htabs]
    simp only [if_pos hg, hf]
  unfold onAlarm
  rw [hget]
  dsimp only
  rw [hst]
  dsimp only
  split_ifs <;> rfl

/-- Putting `x` back at its `indexOf` position into the list without `x`
gives the list again, when `x` occurs exactly once. -/
theorem take_indexOf_cons_drop (l : List String) (x : String) (h : l.count x = 1) :
    0 ≤ indexOf l x ∧
      (indexOf l x).toNat ≤ (l.filter (fun u => u ≠ x)).length ∧
      (l.filter (fun u => u ≠ x)).take (indexOf l x).toNat ++
        x :: (l.filter (fun u => u ≠ x)).drop (indexOf l x).toNat = l := by
  induction l with
  | nil => simp at h
  | cons y ys ih =>
      by_cases hy : y = x
      · subst hy
        have hzero : ys.count y = 0 := by
          rw [List.count_cons_self] at h
          omega
        have hnot : y ∉ ys := List.count_eq_zero.mp hzero
        have hfilter : ys.filter (fun u => u ≠ y) = ys := by
          rw [List.filter_eq_self]
          intro a ha
          have hne : a ≠ y := fun hay => hnot (hay ▸ ha)
          simpa using hne
        have hidx : indexOf (y :: ys) y = 0 := by simp [indexOf]
        rw [hidx, List.filter_cons_of_neg (by simp), hfilter]
        simp
      · have hcount : ys.count x = 1 := by
          rw [List.count_cons_of_ne (fun hxy => hy hxy.symm)] at h
          exact h
        obtain ⟨hnn, hle, heq⟩ := ih hcount
        have hidx : indexOf (y :: ys) x = indexOf ys x + 1 := by
          have hnlt : ¬ indexOf ys x < 0 := not_lt.mpr hnn
          simp [indexOf, hy, hnlt]
        have hnat : (indexOf ys x + 1).toNat = (indexOf ys x).toNat + 1 := by omega
        rw [hidx, hnat, List.filter_cons_of_pos (by simpa using hy)]
        refine ⟨by omega, by simpa using hle, ?_⟩
        simp only [List.take_succ_cons, List.drop_succ_cons, List.cons_append]
        rw [heq]

/-! ## Lemmas on the arithmetic of the creation paths -/

theorem roundToDouble_of_lt (n : Int) (h : n.natAbs < 2 ^ 53) : roundToDouble n = n := by
  have he : excessBits 1024 n.natAbs = 0 := by
    show excessBits (1023 + 1) n.natAbs = 0
    unfold excessBits
    rw [if_pos h]
  unfold roundToDouble
  simp only [he, if_true]

theorem setReminderRecord_times (form : Form) (inp : SetInputs) (m : Int) :
    (setReminderRecord form inp m).endTime = jsAdd inp.nowStamp (jsMul m 60000) ∧
      (setReminderRecord form inp m).timestamp = inp.nowStamp ∧
      (setReminderRecord form inp m).reminderTime = m := by
  unfold setReminderRecord
  cases hcur : inp.activeTabs.head? with
  | none => exact ⟨rfl, rfl, rfl⟩
  | some cur =>
      by_cases hg : cur.groupId ≠ 0 ∧ cur.groupId ≠ -1
      · simp only [hg, if_true, and_self, not_false_eq_true, ne_eq]
        cases getEntireGroupInfo inp.lookup <;> exact ⟨rfl, rfl, rfl⟩
      · simp [hg]

theorem commandRecord_times (tab : Tab) (m : Int) (hostname : String) (inp : CommandInputs) :
    (commandRecord tab m hostname inp).endTime = jsAdd inp.nowStamp (jsMul m 60000) ∧
      (commandRecord tab m hostname inp).timestamp = inp.nowStamp ∧
      (commandRecord tab m hostname inp).reminderTime = m := by
  unfold commandRecord
  by_cases hg : tab.groupId ≠ 0 ∧ tab.groupId ≠ -1
  · simp only [hg, if_true, and_self, not_false_eq_true, ne_eq]
    cases inp.fetch <;> exact ⟨rfl, rfl, rfl⟩
  · simp [hg]

/-! ## Claims -/

/-- C1: the round trip through creation does not hold on the code. A reminder
taken on the middle tab of the group A, B, C, by the popup and by the shortcut
alike, is stored with the other URLs A, C and with no `reminderIndex`, and
`restoreTabGroup` then opens A, C, B. -/
theorem creation_roundtrip_puts_reminder_last :
    ((written emptyWorld abcPopup "reminder_5").map
        (fun r => (r.groupUrls, r.reminderIndex, restoreOrder r)) =
      some (some ["https://a.test/", "https://c.test/"], none,
        ["https://a.test/", "https://c.test/", "https://b.test/"])) ∧
    ((written emptyWorld abcShortcut "reminder_5").map
        (fun r => (r.groupUrls, r.reminderIndex, restoreOrder r)) =
      some (some ["https://a.test/", "https://c.test/"], none,
        ["https://a.test/", "https://c.test/", "https://b.test/"])) := by
  constructor <;> decide

/-- C2: the order in which `restoreTabGroup` opens URLs is the specified one
(the stored URLs without the reminder's URL, the reminder's URL appended when
`reminderIndex` is missing or negative and inserted at
`min(reminderIndex, length)` otherwise); the reminder's URL occurs exactly once
in it and the other URLs keep their relative order. -/
theorem restoreTabGroup_opens_specOrder (r : Reminder) (create : Nat → String → Tab)
    (newGroupId : Int) :
    (∃ rest, restoreTabGroup r create newGroupId =
        .ok ((restoreOrder r).map (fun url => Call.tabsCreate url false) ++ rest) ∧
      ∀ c ∈ rest, ∀ url active, c ≠ Call.tabsCreate url active) ∧
    restoreOrder r = specOrder (r.groupUrls.getD []) r.url r.reminderIndex ∧
    (restoreOrder r).count r.url = 1 ∧
    (restoreOrder r).filter (fun u => u ≠ r.url) =
      (r.groupUrls.getD []).filter (fun u => u ≠ r.url) := by
  have hnot : r.url ∉ (r.groupUrls.getD []).filter (fun u => u ≠ r.url) :=
    filter_ne_not_mem _ _
  refine ⟨?_, ?_, ?_, ?_⟩
  · obtain ⟨t, _, hrun⟩ := restoreTabGroup_eq r create newGroupId
    refine ⟨[Call.tabsGroup ((createAll create 0 (restoreOrder r)).map (fun tab => tab.id))] ++
      styleCalls r newGroupId ++
      [Call.tabsUpdateActive t.id, Call.windowsUpdateFocused t.windowId], ?_, ?_⟩
    · rw [hrun]
      simp [List.append_assoc]
    · intro c hc url active
      simp only [List.mem_append, List.mem_singleton, List.mem_cons, List.mem_nil_iff,
        or_false] at hc
      rcases hc with (hc | hc) | hc | hc
      · rw [hc]; simp
      · obtain ⟨g, title, color, hg⟩ := styleCalls_mem r newGroupId c hc
        rw [hg]; simp
      · rw [hc]; simp
      · rw [hc]; simp
  · rw [restoreOrder_eq_take_drop]
    unfold specOrder insertPos
    cases r.reminderIndex with
    | none => simp
    | some i =>
        by_cases h : i ≥ 0
        · have hlt : ¬ i < 0 := not_lt.mpr h
          simp only [h, hlt, if_true, if_false]
          exact take_cons_drop_eq_insertIdx _ _ _ (Nat.min_le_right _ _)
        · have hlt : i < 0 := not_le.mp h
          simp [h, hlt]
  · rw [restoreOrder_eq_take_drop, List.count_append, List.count_cons_self,
      List.count_eq_zero_of_not_mem (fun hm => hnot (List.mem_of_mem_take hm)),
      List.count_eq_zero_of_not_mem (fun hm => hnot (List.mem_of_mem_drop hm))]
  · rw [restoreOrder_eq_take_drop, List.filter_append, List.filter_cons_of_neg (by simp),
      ← List.filter_append, List.take_append_drop, List.filter_filter]
    simp

/-- C3: the code breaks the claim on the alarm-fire refresh. With the three tabs
A, B, C of the group open, the refresh of the reminder for B stores the list
A, B, C, which contains the reminder's own URL, where both creation paths store
A, C for the same group; the popup list, which adds one for the reminder's own
tab, then prints 4 tabs for the group of 3. -/
theorem alarm_refresh_stores_own_url :
    (∃ r, written plainWorld abcAlarm "reminder_5" = some r ∧
      r.url = "https://b.test/" ∧
      r.groupUrls = some ["https://a.test/", "https://b.test/", "https://c.test/"] ∧
      r.url ∈ ["https://a.test/", "https://b.test/", "https://c.test/"] ∧
      shownTabCount r = some 4) ∧
    abcFetch.groupTabs.length = 3 ∧
    ((written emptyWorld abcShortcut "reminder_5").map (fun r => (r.groupUrls, shownTabCount r)) =
      some (some ["https://a.test/", "https://c.test/"], some 3)) ∧
    ((written emptyWorld abcPopup "reminder_5").map (fun r => (r.groupUrls, shownTabCount r)) =
      some (some ["https://a.test/", "https://c.test/"], some 3)) :=
  ⟨⟨refreshRecord plainReminder (groupedTab 2 "https://b.test/") abcFetch,
      by decide, by decide, by decide, by decide, by decide⟩,
    by decide, by decide, by decide⟩

/-- What each writer stores in `groupUrls`: the shortcut, and the popup when the
form's URL is the URL of the tab whose group is captured, leave the record's own
URL out; the alarm-fire refresh stores the URLs of the live group as they are. -/
theorem written_groupUrls_and_own_url (w : World) (op : StoreWrite) (key : String)
    (r : Reminder) (h : written w op key = some r) :
    match op with
    | .shortcut _ _ => ∀ us, r.groupUrls = some us → r.url ∉ us
    | .popup form inp =>
        (∀ t, inp.lookup.tab = some t → t.url = form.ticketUrl) →
          ∀ us, r.groupUrls = some us → r.url ∉ us
    | .alarm _ inp =>
        ∃ f, inp.fetch = some f ∧ r.groupUrls = some (f.groupTabs.map (fun t => t.url)) := by
  cases op with
  | shortcut command inp =>
      obtain ⟨m, tab, hostname, _, _, _, _, _, hr⟩ := written_shortcut w command inp key r h
      intro us hus
      rw [hr] at hus ⊢
      unfold commandRecord at hus ⊢
      by_cases hg : tab.groupId ≠ 0 ∧ tab.groupId ≠ -1
      · cases hf : inp.fetch with
        | none => simp [hg, hf] at hus
        | some f =>
            simp only [hg, hf, if_true, and_self, not_false_eq_true, ne_eq,
              Option.some.injEq] at hus ⊢
            rw [← hus]
            exact filter_ne_not_mem _ _
      · simp [hg] at hus
  | popup form inp =>
      obtain ⟨m, _, _, _, hr⟩ := written_popup w form inp key r h
      intro hsame us hus
      rw [hr] at hus ⊢
      unfold setReminderRecord at hus ⊢
      cases hc : inp.activeTabs.head? with
      | none => simp [hc] at hus
      | some cur =>
          by_cases hg : cur.groupId ≠ 0 ∧ cur.groupId ≠ -1
          · cases hi : getEntireGroupInfo inp.lookup with
            | none => simp [hc, hg, hi] at hus
            | some g =>
                simp only [hc, hg, hi, if_true, and_self, not_false_eq_true, ne_eq,
                  Option.some.injEq] at hus ⊢
                unfold getEntireGroupInfo at hi
                cases ht : inp.lookup.tab with
                | none => simp [ht] at hi
                | some t =>
                    simp only [ht] at hi
                    split_ifs at hi
                    cases hf : inp.lookup.fetch with
                    | none => simp [hf] at hi
                    | some f =>
                        simp only [hf, Option.some.injEq] at hi
                        rw [← hus, ← hi, ← hsame t ht]
                        exact filter_ne_not_mem _ _
          · simp [hc, hg] at hus
  | alarm name inp =>
      obtain ⟨old, tab0, rest, f, _, _, _, hf, _, hr⟩ := written_alarm w name inp key r h
      exact ⟨f, hf, by rw [hr]; rfl⟩

theorem written_groupUrls_and_own_url_witness :
    written emptyWorld abcShortcut "reminder_5" = some abcRecord ∧
      ∀ us, abcRecord.groupUrls = some us → abcRecord.url ∉ us :=
  ⟨by decide,
    written_groupUrls_and_own_url emptyWorld abcShortcut "reminder_5" abcRecord (by decide)⟩

/-- C4, as stated, fails. When the alarm fires for a reminder whose URL is not
among the URLs of the live group of the first matching tab, the refresh stores
`reminderIndex = -1`; and a record written by the shortcut or the popup carries
group data but no `reminderIndex` at all. -/
theorem stored_reminderIndex_out_of_range :
    ((written starWorld starAlarm "reminder_5").map (fun r => (r.groupUrls, r.reminderIndex)) =
      some (some ["https://a.test/", "https://b.test/find?q=lean"], some (-1))) ∧
    ((written emptyWorld abcShortcut "reminder_5").map (fun r => (r.groupUrls, r.reminderIndex)) =
      some (some ["https://a.test/", "https://c.test/"], none)) ∧
    ((written emptyWorld abcPopup "reminder_5").map (fun r => (r.groupUrls, r.reminderIndex)) =
      some (some ["https://a.test/", "https://c.test/"], none)) := by
  refine ⟨?_, ?_, ?_⟩ <;> decide

/-- C4, amended: a record written by the alarm-fire refresh has a defined
integer `reminderIndex` with `-1 ≤ reminderIndex < length groupUrls`, and the
index is non-negative exactly when the record's URL is among the stored URLs. -/
theorem alarm_refresh_reminderIndex_bounds (w : World) (name : String) (inp : AlarmInputs)
    (key : String) (r : Reminder) (h : written w (.alarm name inp) key = some r) :
    ∃ us i, r.groupUrls = some us ∧ r.reminderIndex = some i ∧
      -1 ≤ i ∧ i < us.length ∧ (0 ≤ i ↔ r.url ∈ us) := by
  obtain ⟨old, tab0, rest, f, _, _, _, _, _, hr⟩ := written_alarm w name inp key r h
  refine ⟨f.groupTabs.map (fun t => t.url), indexOf (f.groupTabs.map (fun t => t.url)) old.url,
    by rw [hr]; rfl, by rw [hr]; rfl, indexOf_ge _ _, indexOf_lt_length _ _, ?_⟩
  have hurl : r.url = old.url := by rw [hr]; rfl
  rw [hurl]
  exact indexOf_nonneg_iff _ _

theorem alarm_refresh_reminderIndex_bounds_witness :
    written plainWorld abcAlarm "reminder_5" = some abcRefreshed ∧
      ∃ us i, abcRefreshed.groupUrls = some us ∧ abcRefreshed.reminderIndex = some i ∧
        -1 ≤ i ∧ i < us.length ∧ (0 ≤ i ↔ abcRefreshed.url ∈ us) :=
  ⟨by decide,
    alarm_refresh_reminderIndex_bounds plainWorld "reminder_5"
      { tabs := [groupedTab 2 "https://b.test/"], fetch := some abcFetch, enableSound := none,
        soundResolves := true, now := 1800005 }
      "reminder_5" abcRefreshed (by decide)⟩

/-- C5, as stated, fails: for a reminder on a page at `#end` whose group also
holds the same page at `#top`, `restoreTabGroup` opens `#top` then `#end`, each
tab reporting the URL it was created with, and activates the tab created for
`#top` (id 100), not the tab created for the reminder's URL at its insertion
position 1 (id 101). -/
theorem restore_focuses_same_page_other_anchor :
    restoreOrder anchorReminder = ["https://x.test/doc#top", "https://x.test/doc#end"] ∧
    insertPos anchorReminder = 1 ∧
    (createAll freshTab 0 (restoreOrder anchorReminder)).map (fun t => (t.id, t.url)) =
      [(100, "https://x.test/doc#top"), (101, "https://x.test/doc#end")] ∧
    restoreTabGroup anchorReminder freshTab 9 =
      .ok [Call.tabsCreate "https://x.test/doc#top" false,
           Call.tabsCreate "https://x.test/doc#end" false,
           Call.tabsGroup [100, 101], Call.tabGroupsUpdate 9 "Sprint" "blue",
           Call.tabsUpdateActive 100, Call.windowsUpdateFocused 1] :=
  ⟨by decide, by decide, by decide, rfl⟩

/-- C5, amended: when every created tab reports the URL it was created with,
the tab `restoreTabGroup` activates and brings to the foreground is the first
created tab whose URL equals the reminder's URL up to the `#` part; it lies at
or before the position where the reminder's URL was inserted, and it is the tab
created for the reminder's own URL at that position whenever no URL opened
before that position equals the reminder's URL up to the `#` part. -/
theorem restoreTabGroup_focuses_first_match (r : Reminder) (create : Nat → String → Tab)
    (newGroupId : Int) (hurl : ∀ i url, (create i url).url = url) :
    ∃ k t pre,
      (createAll create 0 (restoreOrder r))[k]? = some t ∧ k ≤ insertPos r ∧
      stripHash t.url = stripHash r.url ∧
      (∀ j, j < k → ∀ t', (createAll create 0 (restoreOrder r))[j]? = some t' →
        stripHash t'.url ≠ stripHash r.url) ∧
      restoreTabGroup r create newGroupId =
        .ok (pre ++ [Call.tabsUpdateActive t.id, Call.windowsUpdateFocused t.windowId]) ∧
      (∀ c ∈ pre, (∀ id, c ≠ Call.tabsUpdateActive id) ∧
        (∀ wid, c ≠ Call.windowsUpdateFocused wid)) ∧
      ((∀ u ∈ (restoreOrder r).take (insertPos r), stripHash u ≠ stripHash r.url) →
        k = insertPos r ∧ t = create (insertPos r) r.url) := by
  have hown : (createAll create 0 (restoreOrder r))[insertPos r]? =
      some (create (insertPos r) r.url) := by
    rw [createAll_getElem?, restoreOrder_getElem?_insertPos]
    simp
  obtain ⟨k, t, hle, hget, hpt, hfind, hbefore⟩ :=
    find?_first_le (fun tab => decide (stripHash tab.url = stripHash r.url)) _ _ _ hown
      (by simp [hurl])
  have hfocus : focusTarget r (createAll create 0 (restoreOrder r)) = some t := by
    unfold focusTarget
    rw [hfind]
  obtain ⟨t1, ht1, hrun⟩ := restoreTabGroup_eq r create newGroupId
  have ht : t1 = t := by
    rw [hfocus] at ht1
    exact (Option.some.inj ht1).symm
  subst ht
  refine ⟨k, t1, _, hget, hle, by simpa using hpt, ?_, hrun, ?_, ?_⟩
  · intro j hj t' ht'
    simpa using hbefore j hj t' ht'
  · intro c hc
    simp only [List.mem_append, List.mem_map, List.mem_singleton] at hc
    rcases hc with (⟨u, _, hc⟩ | hc) | hc
    · rw [← hc]; simp
    · rw [hc]; simp
    · obtain ⟨g, title, color, hg⟩ := styleCalls_mem r newGroupId c hc
      rw [hg]; simp
  · intro hfrag
    have hk : k = insertPos r := by
      by_contra hne
      have hlt : k < insertPos r := lt_of_le_of_ne hle hne
      rw [createAll_getElem?] at hget
      cases hu : (restoreOrder r)[k]? with
      | none => simp [hu] at hget
      | some u =>
          simp only [hu, Option.map_some', Option.some.injEq, Nat.zero_add] at hget
          have hmem : u ∈ (restoreOrder r).take (insertPos r) := by
            rw [List.mem_iff_getElem?]
            exact ⟨k, by rw [List.getElem?_take_of_lt hlt]; exact hu⟩
          have hbad := hfrag u hmem
          rw [← hget, hurl] at hpt
          exact hbad (by simpa using hpt)
    refine ⟨hk, ?_⟩
    rw [hk, hown] at hget
    exact (Option.some.inj hget).symm

theorem restoreTabGroup_focuses_first_match_witness :
    (∀ i url, (freshTab i url).url = url) ∧
    ∃ k t pre,
      (createAll freshTab 0 (restoreOrder abcRefreshed))[k]? = some t ∧
      k ≤ insertPos abcRefreshed ∧
      stripHash t.url = stripHash abcRefreshed.url ∧
      (∀ j, j < k → ∀ t', (createAll freshTab 0 (restoreOrder abcRefreshed))[j]? = some t' →
        stripHash t'.url ≠ stripHash abcRefreshed.url) ∧
      restoreTabGroup abcRefreshed freshTab 9 =
        .ok (pre ++ [Call.tabsUpdateActive t.id, Call.windowsUpdateFocused t.windowId]) ∧
      (∀ c ∈ pre, (∀ id, c ≠ Call.tabsUpdateActive id) ∧
        (∀ wid, c ≠ Call.windowsUpdateFocused wid)) ∧
      ((∀ u ∈ (restoreOrder abcRefreshed).take (insertPos abcRefreshed),
          stripHash u ≠ stripHash abcRefreshed.url) →
        k = insertPos abcRefreshed ∧ t = freshTab (insertPos abcRefreshed) abcRefreshed.url) :=
  ⟨fun _ _ => rfl, restoreTabGroup_focuses_first_match abcRefreshed freshTab 9 (fun _ _ => rfl)⟩

/-- C6, as stated, fails: JavaScript numbers are doubles. A reminder of
`10000000000000` minutes typed into the popup at the timestamp `1700000040001`
is stored with `endTime = 600001700000040064`, while the timestamp plus the
duration times `60000` is `600001700000040001`. -/
theorem big_duration_endTime_is_rounded :
    ((written emptyWorld
        (.popup { ticketUrl := "https://b.test/", reminderTime := some 10000000000000,
                  comment := "" } (loneInputs 1700000040001))
        "reminder_1700000040001").map (fun r => (r.timestamp, r.reminderTime, r.endTime)) =
      some (1700000040001, 10000000000000, 600001700000040064)) ∧
    (1700000040001 : Int) + 10000000000000 * 60000 = 600001700000040001 := by
  constructor <;> decide

/-- C6, amended: a record written by the popup's `setReminder` or by a shortcut
command has `endTime = timestamp + reminderTime * 60000` exactly, whenever the
product `reminderTime * 60000` and that sum are below `2 ^ 53` in magnitude, the
range in which JavaScript number arithmetic is exact. -/
theorem created_endTime_eq (w : World) (op : StoreWrite) (key : String) (r : Reminder)
    (hc : op.isCreation = true) (hw : written w op key = some r)
    (hmul : (r.reminderTime * 60000).natAbs < 2 ^ 53)
    (hadd : (r.timestamp + r.reminderTime * 60000).natAbs < 2 ^ 53) :
    r.endTime = r.timestamp + r.reminderTime * 60000 := by
  have hrec : r.endTime = jsAdd r.timestamp (jsMul r.reminderTime 60000) := by
    cases op with
    | popup form inp =>
        obtain ⟨m, _, _, _, hr⟩ := written_popup w form inp key r hw
        obtain ⟨h1, h2, h3⟩ := setReminderRecord_times form inp m
        rw [hr, h1, h2, h3]
    | shortcut command inp =>
        obtain ⟨m, tab, hostname, _, _, _, _, _, hr⟩ := written_shortcut w command inp key r hw
        obtain ⟨h1, h2, h3⟩ := commandRecord_times tab m hostname inp
        rw [hr, h1, h2, h3]
    | alarm name inp => simp [StoreWrite.isCreation] at hc
  rw [hrec]
  unfold jsAdd jsMul
  rw [roundToDouble_of_lt _ hmul, roundToDouble_of_lt _ hadd]

theorem created_endTime_eq_witness :
    abcPopup.isCreation = true ∧ written emptyWorld abcPopup "reminder_5" = some abcRecord ∧
      (abcRecord.reminderTime * 60000).natAbs < 2 ^ 53 ∧
      (abcRecord.timestamp + abcRecord.reminderTime * 60000).natAbs < 2 ^ 53 ∧
      abcRecord.endTime = abcRecord.timestamp + abcRecord.reminderTime * 60000 :=
  ⟨rfl, by decide, by decide, by decide,
    created_endTime_eq emptyWorld abcPopup "reminder_5" abcRecord rfl (by decide)
      (by decide) (by decide)⟩

/-- C7, as stated, fails: with a non-empty URL, a duration of `0` and a duration
of `-5` are both accepted; the record is stored and the alarm is requested. -/
theorem setReminder_accepts_nonpositive_duration :
    ((setReminder emptyWorld
        { ticketUrl := "https://b.test/", reminderTime := some 0, comment := "" }
        (loneInputs 5)).1.reminders.map (fun kv => (kv.1, kv.2.reminderTime, kv.2.endTime)) =
      [("reminder_5", 0, 5)]) ∧
    ((setReminder emptyWorld
        { ticketUrl := "https://b.test/", reminderTime := some 0, comment := "" }
        (loneInputs 5)).1.alarms = [("reminder_5", 0)]) ∧
    ((setReminder emptyWorld
        { ticketUrl := "https://b.test/", reminderTime := some (-5), comment := "" }
        (loneInputs 5)).1.reminders.map (fun kv => (kv.1, kv.2.reminderTime, kv.2.endTime)) =
      [("reminder_5", -5, -299995)]) := by
  refine ⟨?_, ?_, ?_⟩ <;> decide

/-- C7, amended: when the URL is empty or the duration is not a number
(`parseInt` gives `NaN`), `setReminder` shows the alert and leaves the store, the
alarms and everything else as they were. -/
theorem setReminder_rejects_invalid (w : World) (form : Form) (inp : SetInputs)
    (h : form.ticketUrl = "" ∨ form.reminderTime = none) :
    setReminder w form inp = (w, [Call.alert "Please enter valid URL and time"]) := by
  unfold setReminder
  cases hm : form.reminderTime with
  | none => rfl
  | some m =>
      rcases h with hu | hn
      · simp [hu]
      · rw [hm] at hn
        exact absurd hn (by simp)

theorem setReminder_rejects_invalid_witness :
    (("" : String) = "" ∨ (some 30 : Option Int) = none) ∧
      setReminder plainWorld { ticketUrl := "", reminderTime := some 30, comment := "" }
        (loneInputs 5) = (plainWorld, [Call.alert "Please enter valid URL and time"]) :=
  ⟨Or.inl rfl,
    setReminder_rejects_invalid plainWorld
      { ticketUrl := "", reminderTime := some 30, comment := "" } (loneInputs 5) (Or.inl rfl)⟩

/-- C8, as stated, fails: the store `setReminder` leaves after a reminder of
`-28333334` minutes taken at `1700000040000` holds one reminder with
`endTime = 0`; one millisecond later that reminder has `endTime < now`, yet the
flag `checkOverdueReminders` passes to the icon is `false`. -/
theorem zero_endTime_is_not_flagged :
    epochWorld.reminders.values.map (fun r => r.endTime) = [0] ∧
    (∃ r ∈ epochWorld.reminders.values, r.endTime < 1700000040001) ∧
    (checkOverdueReminders epochWorld 1700000040001).iconOverdue = false := by
  refine ⟨?_, ?_, ?_⟩ <;> decide

/-- C8, amended: the flag `checkOverdueReminders` passes to the icon is `true`
exactly when some stored reminder has a non-zero `endTime` below `now`; it is
`false` for a store in which no reminder has `endTime < now`. -/
theorem checkOverdueReminders_flag (w : World) (now : Int) :
    ((checkOverdueReminders w now).iconOverdue = true ↔
      ∃ r ∈ w.reminders.values, r.endTime ≠ 0 ∧ r.endTime < now) ∧
    ((∀ r ∈ w.reminders.values, ¬ r.endTime < now) →
      (checkOverdueReminders w now).iconOverdue = false) := by
  have hiff : (checkOverdueReminders w now).iconOverdue = true ↔
      ∃ r ∈ w.reminders.values, r.endTime ≠ 0 ∧ r.endTime < now := by
    simp [checkOverdueReminders, hasOverdue, List.any_eq_true]
  refine ⟨hiff, ?_⟩
  intro hnone
  cases hflag : (checkOverdueReminders w now).iconOverdue with
  | false => rfl
  | true =>
      obtain ⟨r, hr, _, hlt⟩ := hiff.mp hflag
      exact absurd hlt (hnone r hr)

theorem checkOverdueReminders_flag_witness :
    (∀ r ∈ plainWorld.reminders.values, ¬ r.endTime < 1800005) ∧
      (checkOverdueReminders plainWorld 1800005).iconOverdue = false :=
  ⟨by decide, (checkOverdueReminders_flag plainWorld 1800005).2 (by decide)⟩

/-- C9: for a stored reminder whose store read and tab query resolve,
`openReminder` chooses its tab and window calls as follows, issuing an initial
part of them when the platform rejects one and all of them otherwise. A matching
tab whose first hit is grouped: the two focus calls for that tab and nothing
else. A matching ungrouped tab and a record with group data: the full
reconstruction, that is one `tabs.create` per URL of the open order, the
grouping of the created tabs, the title and colour update, and the two focus
calls for the focus target. A matching ungrouped tab and a record without group
data: the two focus calls for that tab. No matching tab: the full reconstruction
when the record has group data, else one `tabs.create` for the reminder's URL
followed by focusing its window. When no awaited call is rejected the function
ends without an exception. -/
theorem openReminder_chooses_action (w : World) (id : String) (shouldDelete : Bool)
    (inp : OpenInputs) (reminder : Reminder) (hget : w.reminders.get id = some reminder)
    (hread : inp.rejects .storageGet = false) (hquery : inp.rejects .tabsQuery = false) :
    ∃ action : List Call,
      (openReminder w id shouldDelete inp).calls <+: action ∧
      ((∀ c ∈ action, inp.rejects (.call c) = false) →
        (openReminder w id shouldDelete inp).calls = action) ∧
      ((∀ a, inp.rejects a = false) → (openReminder w id shouldDelete inp).error = none) ∧
      (∀ t rest, inp.existingTabs = t :: rest → t.groupId ≠ -1 →
        action = [Call.tabsUpdateActive t.id, Call.windowsUpdateFocused t.windowId]) ∧
      (∀ t rest, inp.existingTabs = t :: rest → t.groupId = -1 → reminder.hasGroup = true →
        ∃ target, focusTarget reminder (createAll inp.create 0 (restoreOrder reminder)) =
            some target ∧
          action =
            (restoreOrder reminder).map (fun url => Call.tabsCreate url false) ++
              [Call.tabsGroup ((createAll inp.create 0 (restoreOrder reminder)).map
                (fun tab => tab.id))] ++
              styleCalls reminder inp.newGroupId ++
              [Call.tabsUpdateActive target.id, Call.windowsUpdateFocused target.windowId]) ∧
      (∀ t rest, inp.existingTabs = t :: rest → t.groupId = -1 → reminder.hasGroup = false →
        action = [Call.tabsUpdateActive t.id, Call.windowsUpdateFocused t.windowId]) ∧
      (inp.existingTabs = [] → reminder.hasGroup = true →
        ∃ target, focusTarget reminder (createAll inp.create 0 (restoreOrder reminder)) =
            some target ∧
          action =
            (restoreOrder reminder).map (fun url => Call.tabsCreate url false) ++
              [Call.tabsGroup ((createAll inp.create 0 (restoreOrder reminder)).map
                (fun tab => tab.id))] ++
              styleCalls reminder inp.newGroupId ++
              [Call.tabsUpdateActive target.id, Call.windowsUpdateFocused target.windowId]) ∧
      (inp.existingTabs = [] → reminder.hasGroup = false →
        action = [Call.tabsCreate reminder.url true,
                  Call.windowsUpdateFocused inp.newTab.windowId]) := by
  obtain ⟨steps, hsteps, hfocus, hlone, hsingle, hrestore⟩ := openSteps_flatten reminder inp
  have hcalls := openReminder_calls w id shouldDelete inp reminder steps hread hget hquery hsteps
  refine ⟨steps.flatten, ?_, ?_, ?_, hfocus, ?_, hlone, ?_, hsingle⟩
  · rw [hcalls]
    exact runSteps_prefix _ _
  · intro hres
    rw [hcalls, runSteps_of_resolve inp.rejects steps hres]
  · intro hall
    rw [openReminder_of_resolve w id shouldDelete inp reminder steps hall hget hsteps]
  · intro t rest htabs hno hgroup
    exact hrestore (Or.inl ⟨t, rest, htabs, hno⟩) hgroup
  · intro htabs hgroup
    exact hrestore (Or.inr htabs) hgroup

theorem openReminder_chooses_action_witness :
    refreshedWorld.reminders.get "reminder_5" = some abcRefreshed ∧
    looseInputs.rejects .storageGet = false ∧
    looseInputs.rejects .tabsQuery = false ∧
    abcRefreshed.hasGroup = true ∧
    (openReminder refreshedWorld "reminder_5" true looseInputs).calls =
      [Call.tabsCreate "https://a.test/" false, Call.tabsCreate "https://b.test/" false,
       Call.tabsCreate "https://c.test/" false, Call.tabsGroup [100, 101, 102],
       Call.tabGroupsUpdate 9 "Sprint" "blue", Call.tabsUpdateActive 101,
       Call.windowsUpdateFocused 1] ∧
    ∃ action : List Call,
      (openReminder refreshedWorld "reminder_5" true looseInputs).calls <+: action ∧
      ((∀ c ∈ action, looseInputs.rejects (.call c) = false) →
        (openReminder refreshedWorld "reminder_5" true looseInputs).calls = action) ∧
      ((∀ a, looseInputs.rejects a = false) →
        (openReminder refreshedWorld "reminder_5" true looseInputs).error = none) ∧
      (∀ t rest, looseInputs.existingTabs = t :: rest → t.groupId ≠ -1 →
        action = [Call.tabsUpdateActive t.id, Call.windowsUpdateFocused t.windowId]) ∧
      (∀ t rest, looseInputs.existingTabs = t :: rest → t.groupId = -1 →
        abcRefreshed.hasGroup = true →
        ∃ target, focusTarget abcRefreshed (createAll looseInputs.create 0
            (restoreOrder abcRefreshed)) = some target ∧
          action =
            (restoreOrder abcRefreshed).map (fun url => Call.tabsCreate url false) ++
              [Call.tabsGroup ((createAll looseInputs.create 0 (restoreOrder abcRefreshed)).map
                (fun tab => tab.id))] ++
              styleCalls abcRefreshed looseInputs.newGroupId ++
              [Call.tabsUpdateActive target.id, Call.windowsUpdateFocused target.windowId]) ∧
      (∀ t rest, looseInputs.existingTabs = t :: rest → t.groupId = -1 →
        abcRefreshed.hasGroup = false →
        action = [Call.tabsUpdateActive t.id, Call.windowsUpdateFocused t.windowId]) ∧
      (looseInputs.existingTabs = [] → abcRefreshed.hasGroup = true →
        ∃ target, focusTarget abcRefreshed (createAll looseInputs.create 0
            (restoreOrder abcRefreshed)) = some target ∧
          action =
            (restoreOrder abcRefreshed).map (fun url => Call.tabsCreate url false) ++
              [Call.tabsGroup ((createAll looseInputs.create 0 (restoreOrder abcRefreshed)).map
                (fun tab => tab.id))] ++
              styleCalls abcRefreshed looseInputs.newGroupId ++
              [Call.tabsUpdateActive target.id, Call.windowsUpdateFocused target.windowId]) ∧
      (looseInputs.existingTabs = [] → abcRefreshed.hasGroup = false →
        action = [Call.tabsCreate abcRefreshed.url true,
                  Call.windowsUpdateFocused looseInputs.newTab.windowId]) :=
  ⟨by decide, rfl, rfl, by decide, by decide,
    openReminder_chooses_action refreshedWorld "reminder_5" true looseInputs abcRefreshed
      (by decide) rfl rfl⟩

/-- C10, as stated, fails. For an id that has an alarm but no entry in the store,
`cancelReminder` and the deleting `openReminder` return without clearing the
alarm, so after the first call the id still has its alarm. And when the platform
rejects a call `openReminder` awaits before its clean-up, here the creation of a
tab for a local file of the group, the function ends with that rejection and
the id is still in the store after the first call. -/
theorem orphan_alarm_survives_resolution :
    cancelReminder orphanWorld "reminder_5" = (orphanWorld, []) ∧
    openReminder orphanWorld "reminder_5" true closedInputs =
      { world := orphanWorld, calls := [], error := none } ∧
    orphanWorld.alarms = [("reminder_5", 30)] ∧
    (openReminder fileWorld "reminder_5" true fileInputs).world = fileWorld ∧
    (openReminder fileWorld "reminder_5" true fileInputs).error =
      some "platform call rejected" ∧
    (fileWorld.reminders.get "reminder_5").isSome = true := by
  refine ⟨?_, ?_, ?_, ?_, ?_, ?_⟩ <;> decide

/-- C10, amended: a second `cancelReminder(id)` right after the first changes
nothing, and so does a second deleting `openReminder(id)` whose store read
resolves, right after a first one in which every awaited call resolved: same
store, alarms, notifications and icon, no call and no exception. After the first
call the id is absent from the store, and it has no alarm provided it had a
store entry, or no alarm, before the call. -/
theorem resolve_twice_eq_once (w : World) (id : String) (inp1 inp2 : OpenInputs) :
    (cancelReminder (cancelReminder w id).1 id = ((cancelReminder w id).1, []) ∧
      (cancelReminder w id).1.reminders.get id = none ∧
      ((w.reminders.get id ≠ none ∨ ∀ d, (id, d) ∉ w.alarms) →
        ∀ d, (id, d) ∉ (cancelReminder w id).1.alarms)) ∧
    ((∀ a, inp1.rejects a = false) → inp2.rejects .storageGet = false →
      (openReminder w id true inp1).error = none ∧
      openReminder (openReminder w id true inp1).world id true inp2 =
        { world := (openReminder w id true inp1).world, calls := [], error := none } ∧
      (openReminder w id true inp1).world.reminders.get id = none ∧
      ((w.reminders.get id ≠ none ∨ ∀ d, (id, d) ∉ w.alarms) →
        ∀ d, (id, d) ∉ (openReminder w id true inp1).world.alarms)) := by
  constructor
  · have habsent : (cancelReminder w id).1.reminders.get id = none := by
      unfold cancelReminder
      cases hg : w.reminders.get id with
      | none => exact hg
      | some r => exact Store.get_delete_self _ _
    refine ⟨?_, habsent, ?_⟩
    · exact cancelReminder_of_absent _ _ habsent
    · intro hpre d
      unfold cancelReminder
      cases hg : w.reminders.get id with
      | none =>
          rcases hpre with hne | hno
          · exact absurd hg hne
          · exact hno d
      | some r => exact alarmsClear_not_mem _ _ _
  · intro hall hread2
    cases hg : w.reminders.get id with
    | none =>
        rw [openReminder_of_absent w id true inp1 (hall _) hg]
        refine ⟨rfl, ?_, hg, ?_⟩
        · dsimp only
          rw [openReminder_of_absent
            { w with notifications := notificationsClear w.notifications id } id true inp2
            hread2 hg]
          simp only [notificationsClear_idem]
        · intro hpre d
          rcases hpre with hne | hno
          · exact absurd rfl hne
          · exact hno d
    | some r =>
        obtain ⟨steps, hsteps, _⟩ := openSteps_flatten r inp1
        rw [openReminder_of_resolve w id true inp1 r steps hall hg hsteps, if_pos rfl]
        have habsent : (checkOverdueReminders
            { reminders := w.reminders.delete id, alarms := alarmsClear w.alarms id,
              notifications := notificationsClear w.notifications id,
              iconOverdue := w.iconOverdue } inp1.now).reminders.get id = none :=
          Store.get_delete_self _ _
        refine ⟨rfl, ?_, habsent, ?_⟩
        · dsimp only
          rw [openReminder_of_absent _ id true inp2 hread2 habsent]
          simp only [checkOverdueReminders, notificationsClear_idem]
        · intro _ d
          exact alarmsClear_not_mem _ _ _

theorem resolve_twice_eq_once_witness :
    (∀ a, closedInputs.rejects a = false) ∧
    closedInputs.rejects .storageGet = false ∧
    (plainWorld.reminders.get "reminder_5" ≠ none ∨ ∀ d, ("reminder_5", d) ∉ plainWorld.alarms) ∧
    (openReminder plainWorld "reminder_5" true closedInputs).error = none ∧
    openReminder (openReminder plainWorld "reminder_5" true closedInputs).world "reminder_5" true
        closedInputs =
      { world := (openReminder plainWorld "reminder_5" true closedInputs).world,
        calls := [], error := none } ∧
    (openReminder plainWorld "reminder_5" true closedInputs).world.reminders.get "reminder_5"
      = none ∧
    (∀ d, ("reminder_5", d) ∉ (openReminder plainWorld "reminder_5" true closedInputs).world.alarms) ∧
    (cancelReminder (cancelReminder plainWorld "reminder_5").1 "reminder_5" =
      ((cancelReminder plainWorld "reminder_5").1, [])) :=
  ⟨fun _ => rfl, rfl, Or.inl (by decide),
    ((resolve_twice_eq_once plainWorld "reminder_5" closedInputs closedInputs).2
      (fun _ => rfl) rfl).1,
    ((resolve_twice_eq_once plainWorld "reminder_5" closedInputs closedInputs).2
      (fun _ => rfl) rfl).2.1,
    ((resolve_twice_eq_once plainWorld "reminder_5" closedInputs closedInputs).2
      (fun _ => rfl) rfl).2.2.1,
    ((resolve_twice_eq_once plainWorld "reminder_5" closedInputs closedInputs).2
      (fun _ => rfl) rfl).2.2.2 (Or.inl (by decide)),
    (resolve_twice_eq_once plainWorld "reminder_5" closedInputs closedInputs).1.1⟩

/-- C11: when the alarm's name has no entry in the store, the alarm listener is
a no-op: it shows no notification, does not write to the store, changes nothing
else, makes no call and ends without an exception. -/
theorem onAlarm_without_entry_is_noop (w : World) (name : String) (inp : AlarmInputs)
    (h : w.reminders.get name = none) :
    (onAlarm w name inp).world.notifications = w.notifications ∧
    (onAlarm w name inp).world.reminders = w.reminders ∧
    (onAlarm w name inp).world = w ∧
    (onAlarm w name inp).calls = [] ∧
    (onAlarm w name inp).error = none := by
  rw [onAlarm_of_absent w name inp h]
  exact ⟨rfl, rfl, rfl, rfl, rfl⟩

theorem onAlarm_without_entry_is_noop_witness :
    orphanWorld.reminders.get "reminder_5" = none ∧
    (onAlarm orphanWorld "reminder_5" abcAlarmInputs).world.notifications =
      orphanWorld.notifications ∧
    (onAlarm orphanWorld "reminder_5" abcAlarmInputs).world.reminders = orphanWorld.reminders ∧
    (onAlarm orphanWorld "reminder_5" abcAlarmInputs).world = orphanWorld ∧
    (onAlarm orphanWorld "reminder_5" abcAlarmInputs).calls = [] ∧
    (onAlarm orphanWorld "reminder_5" abcAlarmInputs).error = none :=
  ⟨by decide,
    onAlarm_without_entry_is_noop orphanWorld "reminder_5" abcAlarmInputs (by decide)⟩

/-- C12: when the alarm fires for a stored reminder whose first matching tab is
grouped, and the reminder's URL occurs exactly once among the URLs of the live
group, the listener leaves a record with `groupUrls` the full live list and
`reminderIndex` the position of the reminder's URL in it, and the order in which
`restoreTabGroup` opens URLs from that record is the live list, in the same
order. -/
theorem refresh_then_restore_eq_live (w : World) (name : String) (inp : AlarmInputs)
    (old : Reminder) (tab0 : Tab) (rest : List Tab) (f : GroupFetch)
    (create : Nat → String → Tab) (newGroupId : Int)
    (hget : w.reminders.get name = some old) (htabs : inp.tabs = tab0 :: rest)
    (hg : tab0.groupId ≠ -1) (hf : inp.fetch = some f)
    (hone : (f.groupTabs.map (fun t => t.url)).count old.url = 1) :
    ∃ (r : Reminder) (t : Tab), (onAlarm w name inp).world.reminders.get name = some r ∧
      r.url = old.url ∧
      r.groupUrls = some (f.groupTabs.map (fun t => t.url)) ∧
      r.reminderIndex = some (indexOf (f.groupTabs.map (fun t => t.url)) old.url) ∧
      restoreOrder r = f.groupTabs.map (fun t => t.url) ∧
      restoreTabGroup r create newGroupId =
        .ok ((f.groupTabs.map (fun t => t.url)).map (fun url => Call.tabsCreate url false) ++
          [Call.tabsGroup ((createAll create 0 (f.groupTabs.map (fun t => t.url))).map
            (fun tab => tab.id))] ++
          styleCalls r newGroupId ++
          [Call.tabsUpdateActive t.id, Call.windowsUpdateFocused t.windowId]) := by
  obtain ⟨hnn, hle, heq⟩ := take_indexOf_cons_drop _ _ hone
  have horder : restoreOrder (refreshRecord old tab0 f) = f.groupTabs.map (fun t => t.url) := by
    have hmin : min (indexOf (f.groupTabs.map (fun t => t.url)) old.url).toNat
        ((f.groupTabs.map (fun t => t.url)).filter (fun u => u ≠ old.url)).length =
        (indexOf (f.groupTabs.map (fun t => t.url)) old.url).toNat := min_eq_left hle
    have hsplice := spliceInsert_of_nonneg
      ((f.groupTabs.map (fun t => t.url)).filter (fun u => u ≠ old.url))
      (indexOf (f.groupTabs.map (fun t => t.url)) old.url) old.url hnn
    rw [hmin, heq] at hsplice
    have hge : indexOf (f.groupTabs.map (fun t => t.url)) old.url ≥ 0 := hnn
    simp only [restoreOrder, refreshRecord, Option.getD_some, hge, if_true]
    exact hsplice
  obtain ⟨t, _, hrun⟩ := restoreTabGroup_eq (refreshRecord old tab0 f) create newGroupId
  rw [horder] at hrun
  refine ⟨refreshRecord old tab0 f, t, ?_, rfl, rfl, rfl, horder, hrun⟩
  rw [onAlarm_reminders_of_grouped w name inp old tab0 rest f hget htabs hg hf, Store.get_set]
  simp

theorem refresh_then_restore_eq_live_witness :
    plainWorld.reminders.get "reminder_5" = some plainReminder ∧
    abcAlarmInputs.tabs = [groupedTab 2 "https://b.test/"] ∧
    (groupedTab 2 "https://b.test/").groupId ≠ -1 ∧
    abcAlarmInputs.fetch = some abcFetch ∧
    (abcFetch.groupTabs.map (fun t => t.url)).count plainReminder.url = 1 ∧
    ∃ (r : Reminder) (t : Tab), (onAlarm plainWorld "reminder_5" abcAlarmInputs).world.reminders.get "reminder_5"
        = some r ∧
      r.url = plainReminder.url ∧
      r.groupUrls = some (abcFetch.groupTabs.map (fun t => t.url)) ∧
      r.reminderIndex =
        some (indexOf (abcFetch.groupTabs.map (fun t => t.url)) plainReminder.url) ∧
      restoreOrder r = abcFetch.groupTabs.map (fun t => t.url) ∧
      restoreTabGroup r freshTab 9 =
        .ok ((abcFetch.groupTabs.map (fun t => t.url)).map
            (fun url => Call.tabsCreate url false) ++
          [Call.tabsGroup ((createAll freshTab 0 (abcFetch.groupTabs.map (fun t => t.url))).map
            (fun tab => tab.id))] ++
          styleCalls r 9 ++
          [Call.tabsUpdateActive t.id, Call.windowsUpdateFocused t.windowId]) :=
  ⟨by decide, rfl, by decide, rfl, by decide,
    refresh_then_restore_eq_live plainWorld "reminder_5" abcAlarmInputs plainReminder
      (groupedTab 2 "https://b.test/") [] abcFetch freshTab 9
      (by decide) rfl (by decide) rfl (by decide)⟩

end TabReminder
